import Mathlib

/-!
Verification development for the DOSMatGen diffusion model
(`dosmatgen/models/cspnet_cfg.py` and `dosmatgen/diffusion/property.py`).

The Python code is shallowly embedded over exact rational arithmetic:

* a fractional-coordinate row is `Vec3 := Fin 3 → ℚ`;
* a lattice is `Mat3 := Fin 3 → Fin 3 → ℚ`;
* an atom-type row (one-hot / soft probabilities over species) is
  `TypeVec := Fin MAX_ATOMIC_NUM → ℚ`;
* batched tensors are lists of the above, in the same flat layout the code
  uses (`num_atoms`, `node2graph` run-length bookkeeping);
* learned modules (`nn.Linear`, `nn.Embedding`, MLPs, layer norms) and the
  transcendental primitives (`torch.sqrt`, `sin`, `cos`, `exp`) are abstract
  function fields of the model structures: the claims under verification do
  not depend on their numeric content, only on how the surrounding code
  composes them;
* fallible operations (dtype mismatches, `assert`, `raise`) return
  `Except Err`.
-/

namespace DOSMatGen

/-- Error conditions raised by the embedded code (Python exceptions). -/
inductive Err where
  | assertion
  | keyError
  | typeMismatch
  | yNone
  | invalidPredictionLevel
  | notImplemented
  deriving DecidableEq, Repr

/-- Number of atomic species channels.  `Modelled from the spec:` the constant
`MAX_ATOMIC_NUM` lives in `dosmatgen/utils/constants.py`, which is not part of
the provided sources; the spec only uses it as the size of the atom-type
one-hot channel, so any positive value works.  We fix the conventional 100. -/
abbrev MAX_ATOMIC_NUM : ℕ := 100

abbrev Vec3 := Fin 3 → ℚ
abbrev Mat3 := Fin 3 → Fin 3 → ℚ
abbrev TypeVec := Fin MAX_ATOMIC_NUM → ℚ
/-- A hidden feature row (width is whatever the abstract layers produce). -/
abbrev HVec := List ℚ

def v3zero : Vec3 := fun _ => 0
def m3zero : Mat3 := fun _ _ => 0
def tvzero : TypeVec := fun _ => 0

/-- Python `x % 1.0` on a real scalar: the fractional part, in `[0, 1)`. -/
def mod1 (x : ℚ) : ℚ := x - ⌊x⌋

def mod1v (v : Vec3) : Vec3 := fun i => mod1 (v i)

theorem mod1_eq_fract (x : ℚ) : mod1 x = Int.fract x := rfl

theorem mod1_nonneg (x : ℚ) : 0 ≤ mod1 x := by
  rw [mod1_eq_fract]; exact Int.fract_nonneg x

theorem mod1_lt_one (x : ℚ) : mod1 x < 1 := by
  rw [mod1_eq_fract]; exact Int.fract_lt_one x

/-- `torch.block_diag` of all-ones `n×n` blocks followed by
`dense_to_sparse`: row-major enumeration of the nonzero entries of the
block-diagonal adjacency matrix.  Row `off + i` of the block for a structure
with `n` atoms starting at atom offset `off` has nonzero columns exactly
`off..off+n-1`, so the edges of that structure are listed row by row.
Self-loop entries `(a, a)` are on the diagonal of each all-ones block and are
therefore included. -/
def fcEdgesAux : List ℕ → ℕ → List (ℕ × ℕ)
  | [], _ => []
  | n :: rest, off =>
      ((List.range n).flatMap fun i => (List.range n).map fun j => (off + i, off + j))
        ++ fcEdgesAux rest (off + n)

/-- Edge list of `gen_edges` in the `'fc'` style (cspnet_cfg.py lines 319-321). -/
def fcEdges (num_atoms : List ℕ) : List (ℕ × ℕ) := fcEdgesAux num_atoms 0

/-- Run-length expansion of `num_atoms` into the atom→structure map
(`batch.batch` / `node2graph` in the code; spec §3 data-model invariant). -/
def node2graphAux : List ℕ → ℕ → List ℕ
  | [], _ => []
  | n :: rest, g => List.replicate n g ++ node2graphAux rest (g + 1)

def node2graph (num_atoms : List ℕ) : List ℕ := node2graphAux num_atoms 0

/-- `torch.repeat_interleave(xs, counts, dim=0)`: row `g` of `xs` is repeated
`counts[g]` times. -/
def repeatInterleave (xs : List α) (counts : List ℕ) : List α :=
  (xs.zip counts).flatMap fun p => List.replicate p.2 p.1

def zip3With (f : α → β → γ → δ) : List α → List β → List γ → List δ
  | a :: as, b :: bs, c :: cs => f a b c :: zip3With f as bs cs
  | _, _, _ => []

def zip4With (f : α → β → γ → δ → ε) : List α → List β → List γ → List δ → List ε
  | a :: as, b :: bs, c :: cs, d :: ds => f a b c d :: zip4With f as bs cs ds
  | _, _, _, _ => []

/-- Elementwise sum of two feature rows (`+` on equally shaped tensors). -/
def addV (a b : HVec) : HVec := List.zipWith (· + ·) a b

/-- `torch_geometric.utils.scatter(src, index, dim=0, reduce='mean', dim_size)`:
group the rows of `src` by `index` and average each group; a target with no
incoming rows gets the zero vector (torch divides the zero sum by
`count.clamp(min=1)`).  `width` is the feature width carried by the tensor
metadata (relevant only for empty groups). -/
def scatterMeanL (src : List HVec) (index : List ℕ) (dim_size width : ℕ) : List HVec :=
  (List.range dim_size).map fun k =>
    let rows := (index.zip src).filterMap fun p => if p.1 = k then some p.2 else none
    let s := rows.foldl addV (List.replicate width 0)
    s.map fun x => x / (max rows.length 1 : ℚ)

/-- `dim_size` inference used by `scatter` when the caller does not pass it:
`index.max + 1` (0 for an empty index list). -/
def inferredDimSize (index : List ℕ) : ℕ :=
  match index with
  | [] => 0
  | _ => index.foldl Nat.max 0 + 1

/-- Matrix product of two `3×3` matrices (`torch.einsum('bij,bjk->bik', ...)`
per batch element, and `lattices @ lattices.transpose(-1,-2)`). -/
def matMul3 (A B : Mat3) : Mat3 :=
  fun i k => A i 0 * B 0 k + A i 1 * B 1 k + A i 2 * B 2 k

def mat3T (A : Mat3) : Mat3 := fun i j => A j i

/-- `tensor.view(-1, 9)` applied to one `3×3` matrix. -/
def flat9 (A : Mat3) : List ℚ :=
  [A 0 0, A 0 1, A 0 2, A 1 0, A 1 1, A 1 2, A 2 0, A 2 1, A 2 2]

/-- `tensor.view(-1, 3, 3)` applied to one row of 9 scalars. -/
def unflat9 (v : List ℚ) : Mat3 := fun i j => v.getD (3 * i.val + j.val) 0

def vec3ToList (v : Vec3) : List ℚ := [v 0, v 1, v 2]

/-- `F.one_hot(k, num_classes=MAX_ATOMIC_NUM)` for a single index. -/
def oneHot (k : ℕ) : TypeVec := fun i => if i.val = k then 1 else 0

/-- `tensor.argmax(dim=-1)` over the species channel (first maximal index). -/
def argmaxF (v : TypeVec) : Fin MAX_ATOMIC_NUM :=
  (List.finRange MAX_ATOMIC_NUM).foldl (fun best i => if v best < v i then i else best)
    ⟨0, by decide⟩

/-- `[T, T-1, ..., s]`, the key order `range(T, s-1, -1)` used by the sampler. -/
def descList (T s : ℕ) : List ℕ := (List.range' s (T + 1 - s)).reverse

/-- Python dict assignment `traj[k] = v` on an association list kept in
insertion order: overwrite in place if the key exists, else append. -/
def dictSet (m : List (ℕ × α)) (k : ℕ) (v : α) : List (ℕ × α) :=
  if (m.lookup k).isSome then m.map fun p => if p.1 = k then (k, v) else p
  else m ++ [(k, v)]

/-! ## Message-passing backbone (`cspnet_cfg.py`) -/

/-- Weights and flags of one `CSPLayer` (cspnet_cfg.py lines 26-134).  The two
MLPs and the optional layer norm are abstract functions; `dis_emb` is the
optional sinusoidal displacement embedding (`SinusoidsEmbedding`, abstract
because it is built from `sin`/`cos` at fixed frequencies); `hidden_dim` is
the feature width carried by the tensor metadata. -/
structure CSPLayerW where
  hidden_dim : ℕ
  ln : Bool
  ip : Bool
  dis_emb : Option (Vec3 → List ℚ)
  edge_mlp : List ℚ → HVec
  node_mlp : List ℚ → HVec
  layer_norm : HVec → HVec

/-- `CSPLayer.edge_model`: per edge, concatenate receiver features, sender
features, the flattened lattice (inner-product) matrix of the edge's owning
structure, and the (optionally embedded) fractional displacement, then apply
the edge MLP. -/
def CSPLayer.edge_model (W : CSPLayerW) (node_features : List HVec)
    (frac_coords : List Vec3) (lattices : List Mat3) (edges : List (ℕ × ℕ))
    (edge2graph : List ℕ) (frac_diff : Option (List Vec3)) : List HVec :=
  let fd : List Vec3 :=
    match frac_diff with
    | none => edges.map fun e =>
        mod1v fun i => (frac_coords.getD e.2 v3zero) i - (frac_coords.getD e.1 v3zero) i
    | some d => d
  let fdF : List (List ℚ) :=
    match W.dis_emb with
    | some f => fd.map f
    | none => fd.map vec3ToList
  let lattice_ips := if W.ip then lattices.map fun L => matMul3 L (mat3T L) else lattices
  let lat9 := lattice_ips.map flat9
  let edges_input := zip3With
    (fun (e : ℕ × ℕ) (g : ℕ) (fr : List ℚ) =>
      (node_features.getD e.1 []) ++ (node_features.getD e.2 []) ++ (lat9.getD g []) ++ fr)
    edges edge2graph fdF
  edges_input.map W.edge_mlp

/-- `CSPLayer.node_model`: mean-aggregate the incoming edge features at each
atom (grouping by `edge_index[0]`, the receiving endpoint), concatenate with
the atom features and apply the node MLP. -/
def CSPLayer.node_model (W : CSPLayerW) (node_features : List HVec)
    (edge_features : List HVec) (edges : List (ℕ × ℕ)) : List HVec :=
  let agg := scatterMeanL edge_features (edges.map Prod.fst) node_features.length W.hidden_dim
  (node_features.zip agg).map fun p => W.node_mlp (p.1 ++ p.2)

/-- `CSPLayer.forward`: optional pre-norm, edge model, node model, residual. -/
def CSPLayer.forward (W : CSPLayerW) (node_features : List HVec)
    (frac_coords : List Vec3) (lattices : List Mat3) (edges : List (ℕ × ℕ))
    (edge2graph : List ℕ) (frac_diff : Option (List Vec3)) : List HVec :=
  let node_input := node_features
  let node_features := if W.ln then node_features.map W.layer_norm else node_features
  let edge_features :=
    CSPLayer.edge_model W node_features frac_coords lattices edges edge2graph frac_diff
  let node_output := CSPLayer.node_model W node_features edge_features edges
  List.zipWith addV node_input node_output

inductive EdgeStyle where
  | fc
  | knn
  deriving DecidableEq, Repr

/-- The duck-typed atom-type input of `CSPNet.forward`: integer species ids
(the `nn.Embedding` path, `smooth=False`) or float per-species rows (the
`nn.Linear` path, `smooth=True`). -/
inductive AtomTypes where
  | ints : List ℕ → AtomTypes
  | probs : List TypeVec → AtomTypes

/-- Configuration flags and abstract weights of `CSPNet`
(cspnet_cfg.py lines 136-228).  `knn_edges` stands for the external
`radius_graph_pbc` + symmetrization pipeline of the `'knn'` edge style (an
out-of-scope geometry collaborator per spec §4.2). -/
structure CSPNet where
  num_layers : ℕ
  edge_style : EdgeStyle
  smooth : Bool
  ln : Bool
  ip : Bool
  pred_type : Bool
  pred_graph_level : Bool
  pred_node_level : Bool
  pred_dim : Option ℕ
  cfg : Bool
  node_embedding_lin : TypeVec → HVec
  node_embedding_emb : ℕ → HVec
  y_projection : List ℚ → HVec
  atom_latent_emb : HVec → HVec
  layers : ℕ → CSPLayerW
  final_layer_norm : HVec → HVec
  coord_out : HVec → Vec3
  lattice_out : HVec → List ℚ
  type_out : HVec → TypeVec
  graph_out : HVec → List ℚ
  node_out : HVec → List ℚ
  knn_edges : List ℕ → List Vec3 → List Mat3 → List ℕ → List (ℕ × ℕ) × List Vec3

/-- The construction-time validation of `CSPNet.__init__`
(cspnet_cfg.py lines 218-219): requesting a prediction head without its
output dimensionality is a `ValueError`.  This is the only `raise` in the
constructor; no other flag combination is rejected there. -/
def CSPNet.initCheck (pred_graph_level pred_node_level : Bool)
    (pred_dim : Option ℕ) : Except Err Unit :=
  if (pred_graph_level || pred_node_level) && pred_dim.isNone then
    Except.error Err.invalidPredictionLevel
  else Except.ok ()

/-- `CSPNet.gen_edges` (cspnet_cfg.py lines 317-349). -/
def CSPNet.gen_edges (N : CSPNet) (num_atoms : List ℕ) (frac_coords : List Vec3)
    (lattices : List Mat3) (n2g : List ℕ) : List (ℕ × ℕ) × List Vec3 :=
  match N.edge_style with
  | EdgeStyle.fc =>
    let fc_edges := fcEdges num_atoms
    (fc_edges, fc_edges.map fun e =>
      mod1v fun i => (frac_coords.getD e.2 v3zero) i - (frac_coords.getD e.1 v3zero) i)
  | EdgeStyle.knn => N.knn_edges num_atoms frac_coords lattices n2g

/-- The five outputs of one backbone pass; disabled heads are `none`. -/
structure CSPOut where
  coord_out : List Vec3
  lattice_out : List Mat3
  type_out : Option (List TypeVec)
  graph_out : Option (List (List ℚ))
  node_out : Option (List (List ℚ))

/-- `CSPNet.unconditional` (cspnet_cfg.py lines 422-475).  `y` is accepted and
ignored, as in the source. -/
def CSPNet.unconditional (N : CSPNet) (t : List (List ℚ)) (atom_types : AtomTypes)
    (frac_coords : List Vec3) (lattices : List Mat3) (num_atoms : List ℕ)
    (n2g : List ℕ) (_y : Option (List (List ℚ))) : Except Err CSPOut := do
  let ed := CSPNet.gen_edges N num_atoms frac_coords lattices n2g
  let edges := ed.1
  let frac_diff := ed.2
  let edge2graph := edges.map fun e => n2g.getD e.1 0
  let node_features ←
    match atom_types, N.smooth with
    | AtomTypes.probs p, true => Except.ok (p.map N.node_embedding_lin)
    | AtomTypes.ints ids, false => Except.ok (ids.map fun a => N.node_embedding_emb (a - 1))
    | _, _ => Except.error Err.typeMismatch
  let t_per_atom := repeatInterleave t num_atoms
  let node_features := List.zipWith (fun h te => h ++ te) node_features t_per_atom
  let node_features := node_features.map N.atom_latent_emb
  let node_features := (List.range N.num_layers).foldl
    (fun nf i =>
      CSPLayer.forward (N.layers i) nf frac_coords lattices edges edge2graph (some frac_diff))
    node_features
  let node_features := if N.ln then node_features.map N.final_layer_norm else node_features
  let coord_out := node_features.map N.coord_out
  let node_out := if N.pred_node_level then some (node_features.map N.node_out) else none
  let graph_features := scatterMeanL node_features n2g (inferredDimSize n2g)
    ((node_features.headD []).length)
  let graph_out := if N.pred_graph_level then some (graph_features.map N.graph_out) else none
  let lattice_out := (graph_features.map N.lattice_out).map unflat9
  let lattice_out := if N.ip then List.zipWith matMul3 lattice_out lattices else lattice_out
  let type_out := if N.pred_type then some (node_features.map N.type_out) else none
  Except.ok
    { coord_out := coord_out, lattice_out := lattice_out, type_out := type_out,
      graph_out := graph_out, node_out := node_out }

/-- `CSPNet.conditional` (cspnet_cfg.py lines 477-534): like `unconditional`
but the projected property vector is always added into the initial atom
features (`y = None` is a runtime error, as `y.to(...)` would raise). -/
def CSPNet.conditional (N : CSPNet) (t : List (List ℚ)) (atom_types : AtomTypes)
    (frac_coords : List Vec3) (lattices : List Mat3) (num_atoms : List ℕ)
    (n2g : List ℕ) (y : Option (List (List ℚ))) : Except Err CSPOut := do
  let ed := CSPNet.gen_edges N num_atoms frac_coords lattices n2g
  let edges := ed.1
  let frac_diff := ed.2
  let edge2graph := edges.map fun e => n2g.getD e.1 0
  let node_features ←
    match atom_types, N.smooth with
    | AtomTypes.probs p, true => Except.ok (p.map N.node_embedding_lin)
    | AtomTypes.ints ids, false => Except.ok (ids.map fun a => N.node_embedding_emb (a - 1))
    | _, _ => Except.error Err.typeMismatch
  let t_per_atom := repeatInterleave t num_atoms
  let yv ←
    match y with
    | some yv => Except.ok yv
    | none => Except.error Err.yNone
  let node_features := List.zipWith addV node_features (yv.map N.y_projection)
  let node_features := List.zipWith (fun h te => h ++ te) node_features t_per_atom
  let node_features := node_features.map N.atom_latent_emb
  let node_features := (List.range N.num_layers).foldl
    (fun nf i =>
      CSPLayer.forward (N.layers i) nf frac_coords lattices edges edge2graph (some frac_diff))
    node_features
  let node_features := if N.ln then node_features.map N.final_layer_norm else node_features
  let coord_out := node_features.map N.coord_out
  let node_out := if N.pred_node_level then some (node_features.map N.node_out) else none
  let graph_features := scatterMeanL node_features n2g (inferredDimSize n2g)
    ((node_features.headD []).length)
  let graph_out := if N.pred_graph_level then some (graph_features.map N.graph_out) else none
  let lattice_out := (graph_features.map N.lattice_out).map unflat9
  let lattice_out := if N.ip then List.zipWith matMul3 lattice_out lattices else lattice_out
  let type_out := if N.pred_type then some (node_features.map N.type_out) else none
  Except.ok
    { coord_out := coord_out, lattice_out := lattice_out, type_out := type_out,
      graph_out := graph_out, node_out := node_out }

/-- `CSPNet.forward` (cspnet_cfg.py lines 351-420): dispatch on the
`unconditional`/`conditional` flags, otherwise the default path, whose only
difference from `unconditional` is the classifier-free-guidance block.  `r` is
the Bernoulli draw `torch.rand(1) >= cfg_prob` of that block. -/
def CSPNet.forward (N : CSPNet) (t : List (List ℚ)) (atom_types : AtomTypes)
    (frac_coords : List Vec3) (lattices : List Mat3) (num_atoms : List ℕ)
    (n2g : List ℕ) (y : Option (List (List ℚ))) (uncond cond : Bool)
    (r : Bool) : Except Err CSPOut :=
  if uncond then CSPNet.unconditional N t atom_types frac_coords lattices num_atoms n2g y
  else if cond then CSPNet.conditional N t atom_types frac_coords lattices num_atoms n2g y
  else do
    let ed := CSPNet.gen_edges N num_atoms frac_coords lattices n2g
    let edges := ed.1
    let frac_diff := ed.2
    let edge2graph := edges.map fun e => n2g.getD e.1 0
    let node_features ←
      match atom_types, N.smooth with
      | AtomTypes.probs p, true => Except.ok (p.map N.node_embedding_lin)
      | AtomTypes.ints ids, false => Except.ok (ids.map fun a => N.node_embedding_emb (a - 1))
      | _, _ => Except.error Err.typeMismatch
    let t_per_atom := repeatInterleave t num_atoms
    let node_features ←
      if N.cfg then
        if r then
          match y with
          | some yv => Except.ok (List.zipWith addV node_features (yv.map N.y_projection))
          | none => Except.error Err.yNone
        else Except.ok node_features
      else Except.ok node_features
    let node_features := List.zipWith (fun h te => h ++ te) node_features t_per_atom
    let node_features := node_features.map N.atom_latent_emb
    let node_features := (List.range N.num_layers).foldl
      (fun nf i =>
        CSPLayer.forward (N.layers i) nf frac_coords lattices edges edge2graph (some frac_diff))
      node_features
    let node_features := if N.ln then node_features.map N.final_layer_norm else node_features
    let coord_out := node_features.map N.coord_out
    let node_out := if N.pred_node_level then some (node_features.map N.node_out) else none
    let graph_features := scatterMeanL node_features n2g (inferredDimSize n2g)
      ((node_features.headD []).length)
    let graph_out := if N.pred_graph_level then some (graph_features.map N.graph_out) else none
    let lattice_out := (graph_features.map N.lattice_out).map unflat9
    let lattice_out := if N.ip then List.zipWith matMul3 lattice_out lattices else lattice_out
    let type_out := if N.pred_type then some (node_features.map N.type_out) else none
    Except.ok
      { coord_out := coord_out, lattice_out := lattice_out, type_out := type_out,
        graph_out := graph_out, node_out := node_out }

/-! ## Diffusion module (`property.py`) -/

/-- Variance-preserving schedule tables (`BetaScheduler`; spec §3/§4.1:
immutable per-timestep arrays computed at construction, from
`dosmatgen/utils/diffusion.py` which is not part of the provided sources, so
the tables are abstract read-only functions here). -/
structure Sched where
  timesteps : ℕ
  betas : ℕ → ℚ
  alphas : ℕ → ℚ
  alphas_cumprod : ℕ → ℚ
  sigmas : ℕ → ℚ

/-- Variance-exploding schedule tables (`SigmaScheduler`), abstract for the
same reason. -/
structure SigmaSched where
  sigmas : ℕ → ℚ
  sigmas_norm : ℕ → ℚ
  sigma_begin : ℚ

/-- A flat batch of crystal structures (spec §3): per-structure atom counts
and lattice parameters, per-atom species / fractional coordinates, and the
property target `y`. -/
structure Batch where
  num_atoms : List ℕ
  frac_coords : List Vec3
  lengths : List Vec3
  angles : List Vec3
  atom_types : List ℕ
  y : List (List ℚ)

def Batch.num_graphs (b : Batch) : ℕ := b.num_atoms.length

/-- `batch.batch`: the atom→structure map, the run-length expansion of
`num_atoms` (spec §3 invariant). -/
def Batch.node2graph (b : Batch) : List ℕ := DOSMatGen.node2graph b.num_atoms

/-- The diffusion module `CSPProperty` (property.py lines 94-111).
`sqrtF` stands for `torch.sqrt`; `timeFreq`, `sinF`, `cosF` are the
transcendental pieces of `SinusoidalTimeEmbeddings`;
`lattice_params_to_matrix` is the external trigonometric
lengths/angles → matrix conversion (`dosmatgen/utils/data.py`, not in the
provided sources). -/
structure CSPProperty where
  decoder : CSPNet
  beta_scheduler : Sched
  sigma_scheduler : SigmaSched
  time_dim : ℕ
  timeFreq : ℕ → ℚ
  sinF : ℚ → ℚ
  cosF : ℚ → ℚ
  sqrtF : ℚ → ℚ
  time_independent : Bool
  latent_dim : ℕ
  lattice_params_to_matrix : Vec3 → Vec3 → Mat3

/-- `SinusoidalTimeEmbeddings.forward` (property.py lines 79-92): per time
value, `half_dim = dim // 2` frequencies, concatenated sine and cosine rows.
The output length `2 * (dim / 2)` does not depend on the time value. -/
def CSPProperty.time_embedding (M : CSPProperty) (t : ℚ) : List ℚ :=
  let half := M.time_dim / 2
  ((List.range half).map fun k => M.sinF (t * M.timeFreq k))
    ++ ((List.range half).map fun k => M.cosF (t * M.timeFreq k))

theorem time_embedding_length (M : CSPProperty) (t : ℚ) :
    (M.time_embedding t).length = 2 * (M.time_dim / 2) := by
  simp [CSPProperty.time_embedding]; ring

/-- Coordinate corruption of the training forward pass
(property.py lines 124, 134-135): `x_t = (x_0 + σ(t)·ε) mod 1` with `σ`
broadcast per atom by `repeat_interleave`. -/
def CSPProperty.corruptCoords (M : CSPProperty) (num_atoms : List ℕ)
    (times : List ℕ) (frac_coords rand_x : List Vec3) : List Vec3 :=
  let sigmas := times.map M.sigma_scheduler.sigmas
  let sigmas_per_atom := repeatInterleave sigmas num_atoms
  zip3With (fun x rx s => mod1v fun i => x i + s * rx i) frac_coords rand_x sigmas_per_atom

/-- Lattice corruption of the training forward pass
(property.py lines 118-133): `l_t = √ᾱ(t)·l_0 + √(1-ᾱ(t))·ε`. -/
def CSPProperty.corruptLattice (M : CSPProperty) (times : List ℕ)
    (lattices rand_l : List Mat3) : List Mat3 :=
  let alphas_cumprod := times.map M.beta_scheduler.alphas_cumprod
  let c0 := alphas_cumprod.map M.sqrtF
  let c1 := alphas_cumprod.map fun a => M.sqrtF (1 - a)
  zip4With (fun cg dg l rl => fun i j => cg * l i j + dg * rl i j) c0 c1 lattices rand_l

/-- Atom-type corruption of the training forward pass
(property.py lines 137-142): `√ᾱ(t)·onehot + √(1-ᾱ(t))·ε`, coefficients
broadcast per atom. -/
def CSPProperty.corruptTypes (M : CSPProperty) (num_atoms : List ℕ)
    (times : List ℕ) (onehot rand_t : List TypeVec) : List TypeVec :=
  let alphas_cumprod := times.map M.beta_scheduler.alphas_cumprod
  let c0_repeated := repeatInterleave (alphas_cumprod.map M.sqrtF) num_atoms
  let c1_repeated := repeatInterleave (alphas_cumprod.map fun a => M.sqrtF (1 - a)) num_atoms
  zip4With (fun cg dg o rt => fun i => cg * o i + dg * rt i) c0_repeated c1_repeated onehot rand_t

/-- `F.l1_loss(pred, target)`: mean absolute difference over all elements
(with the empty mean read as 0 in ℚ where torch yields NaN). -/
def l1Loss (pred target : List (List ℚ)) : ℚ :=
  let ds := (List.zipWith (fun p t => List.zipWith (fun a b => |a - b|) p t) pred target).flatten
  ds.foldl (· + ·) 0 / ds.length

/-- `torch.linalg.norm(pred - target, dim=1)`: per-row Euclidean norm, with
the square root represented by the abstract `sqrtF`. -/
def valNorm (sq : ℚ → ℚ) (pred target : List (List ℚ)) : List ℚ :=
  List.zipWith
    (fun p t => sq ((List.zipWith (fun a b => (a - b) ^ 2) p t).foldl (· + ·) 0)) pred target

/-- `CSPProperty.forward` (property.py lines 113-169): corrupt the batch at
the sampled timesteps, run the decoder on the corrupted state, return the L1
loss of the enabled property head.  `times` are the sampled timesteps,
`rand_l`/`rand_x`/`rand_t` the Gaussian draws, `r` the decoder's
classifier-free-guidance coin. -/
def CSPProperty.forward (M : CSPProperty) (b : Batch) (times : List ℕ)
    (rand_l : List Mat3) (rand_x : List Vec3) (rand_t : List TypeVec)
    (r : Bool) : Except Err ℚ := do
  let time_emb := times.map fun tt : ℕ => M.time_embedding (tt : ℚ)
  let lattices := List.zipWith M.lattice_params_to_matrix b.lengths b.angles
  let input_lattice := CSPProperty.corruptLattice M times lattices rand_l
  let input_frac_coords := CSPProperty.corruptCoords M b.num_atoms times b.frac_coords rand_x
  let gt_atom_types_onehot := b.atom_types.map fun a => oneHot (a - 1)
  let atom_type_probs := CSPProperty.corruptTypes M b.num_atoms times gt_atom_types_onehot rand_t
  let st :=
    if M.time_independent then
      (time_emb.map fun row => row.map fun _ => (0 : ℚ), gt_atom_types_onehot,
        b.frac_coords, lattices)
    else (time_emb, atom_type_probs, input_frac_coords, input_lattice)
  let out ← CSPNet.forward M.decoder st.1 (AtomTypes.probs st.2.1) st.2.2.1 st.2.2.2
    b.num_atoms b.node2graph none false false r
  if M.decoder.pred_graph_level then
    match out.graph_out with
    | some pred_graph => Except.ok (l1Loss pred_graph b.y)
    | none => Except.error Err.typeMismatch
  else if M.decoder.pred_node_level then
    match out.node_out with
    | some pred_node => Except.ok (l1Loss pred_node b.y)
    | none => Except.error Err.typeMismatch
  else Except.error Err.invalidPredictionLevel

/-- `CSPProperty.infer` (property.py lines 171-196): zero the time embedding
and feed the clean structure to the decoder; return (prediction, target). -/
def CSPProperty.infer (M : CSPProperty) (b : Batch) (times : List ℕ)
    (r : Bool) : Except Err (List (List ℚ) × List (List ℚ)) := do
  let time_emb := times.map fun tt : ℕ => M.time_embedding (tt : ℚ)
  let time_emb := time_emb.map fun row => row.map fun _ => (0 : ℚ)
  let atom_type_probs := b.atom_types.map fun a => oneHot (a - 1)
  let input_frac_coords := b.frac_coords
  let input_lattice := List.zipWith M.lattice_params_to_matrix b.lengths b.angles
  let out ← CSPNet.forward M.decoder time_emb (AtomTypes.probs atom_type_probs)
    input_frac_coords input_lattice b.num_atoms b.node2graph none false false r
  if M.decoder.pred_graph_level then
    match out.graph_out with
    | some pred_graph => Except.ok (pred_graph, b.y)
    | none => Except.error Err.typeMismatch
  else if M.decoder.pred_node_level then
    match out.node_out with
    | some pred_node => Except.ok (pred_node, b.y)
    | none => Except.error Err.typeMismatch
  else Except.error Err.invalidPredictionLevel

/-! ## Reverse sampler (`property.py` lines 198-512) -/

/-- One trajectory snapshot (`traj[t]`). -/
structure Snapshot where
  num_atoms : List ℕ
  atom_types : List TypeVec
  frac_coords : List Vec3
  lattices : List Mat3
  deriving DecidableEq

/-- The trajectory dict, in insertion order. -/
abbrev Traj := List (ℕ × Snapshot)

/-- Corrector coordinate update (property.py line 280):
`x_{t-1/2} = x_t - step_size·pred_x + std_x·ε` (per atom, `pred_x` already
scaled by `√sigma_norm`). -/
def correctorCoordUpdate (step_size std_x : ℚ) (xt predX randX : Vec3) : Vec3 :=
  fun i => xt i - step_size * predX i + std_x * randX i

/-- Predictor coordinate update of `sample` (property.py line 329):
`x_{t-1} = x_{t-1/2} - step_size·pred_x - std_x²·aug·grad_x + std_x·ε`. -/
def sampleCoordUpdate (step_size std_x aug : ℚ) (x05 predX gradX randX : Vec3) : Vec3 :=
  fun i => x05 i - step_size * predX i - std_x ^ 2 * aug * gradX i + std_x * randX i

/-- Predictor lattice update of `sample` (property.py line 330):
`l_{t-1} = c0·(l_{t-1/2} - c1·pred_l) - σ²·aug·grad_l + σ·ε`. -/
def sampleLatticeUpdate (c0 c1 sigmas aug : ℚ) (l05 predL gradL randL : Mat3) : Mat3 :=
  fun i j => c0 * (l05 i j - c1 * predL i j) - sigmas ^ 2 * aug * gradL i j + sigmas * randL i j

/-- Predictor atom-type update of `sample` (property.py line 331). -/
def sampleTypeUpdate (c0 c1 sigmas aug : ℚ) (t05 predT gradT randT : TypeVec) : TypeVec :=
  fun i => c0 * (t05 i - c1 * predT i) - sigmas ^ 2 * aug * gradT i + sigmas * randT i

/-- Predictor lattice update of `masked_sample` (property.py line 488): the
same update without the guidance-gradient term:
`l_{t-1} = c0·(l_{t-1/2} - c1·pred_l) + σ·ε`. -/
def maskedLatticeUpdate (c0 c1 sigmas : ℚ) (l05 predL randL : Mat3) : Mat3 :=
  fun i j => c0 * (l05 i j - c1 * predL i j) + sigmas * randL i j

/-- Coordinate update with the guidance term removed (what the `sample`
update reduces to when the gated gradient vanishes). -/
def unguidedCoordUpdate (step_size std_x : ℚ) (x05 predX randX : Vec3) : Vec3 :=
  fun i => x05 i - step_size * predX i + std_x * randX i

/-- Atom-type update with the guidance term removed. -/
def unguidedTypeUpdate (c0 c1 sigmas : ℚ) (t05 predT randT : TypeVec) : TypeVec :=
  fun i => c0 * (t05 i - c1 * predT i) + sigmas * randT i

/-- The Gaussian/Bernoulli draws consumed by one sampling run.  Only the
draws the loop actually reads are modelled: the draws of property.py lines
243-245 and the corrector-phase `rand_l`/`rand_t` are overwritten before any
use.  `coinA/B/C` are the classifier-free-guidance coins of the three
backbone invocations per step (unused when `cfg` is off). -/
structure SampleNoise where
  init_l : List Mat3
  init_x : List Vec3
  init_t : List TypeVec
  start_l : List Mat3
  start_x : List Vec3
  start_t : List TypeVec
  corr_x : ℕ → List Vec3
  pred_l : ℕ → List Mat3
  pred_x : ℕ → List Vec3
  pred_t : ℕ → List TypeVec
  coinA : ℕ → Bool
  coinB : ℕ → Bool
  coinC : ℕ → Bool

/-- The reverse-mode differentiation of the property-discrepancy objective
(property.py lines 320-326): an external autodiff engine producing
`(grad_t, grad_x, grad_l)` from the timestep and the corrector-refined state. -/
abbrev GradOracle :=
  ℕ → List TypeVec → List Vec3 → List Mat3 → List TypeVec × List Vec3 × List Mat3

/-- Everything one reverse step reads besides `(t, traj)`. -/
structure SampleCtx where
  M : CSPProperty
  uncod : CSPProperty
  b : Batch
  step_lr : ℚ
  aug : ℚ
  noise : SampleNoise
  gradO : GradOracle
  l_T : List Mat3
  x_T : List Vec3
  t_T : List TypeVec

/-- One iteration of the reverse loop of `CSPProperty.sample`
(property.py lines 236-338): corrector half-step on the coordinates, two
unconditional backbone evaluations, guidance gradient from the main model,
predictor update, and `traj[t-1] = ...`. -/
def CSPProperty.revStep (ctx : SampleCtx) (t : ℕ) (traj : Traj) : Except Err Traj := do
  let M := ctx.M
  let b := ctx.b
  let time_emb := (List.replicate b.num_graphs ((t : ℚ))).map M.time_embedding
  if 0 < M.latent_dim then throw Err.notImplemented
  let alphas := M.beta_scheduler.alphas t
  let alphas_cumprod := M.beta_scheduler.alphas_cumprod t
  let sigmas := M.beta_scheduler.sigmas t
  let sigma_x := M.sigma_scheduler.sigmas t
  let sigma_norm := M.sigma_scheduler.sigmas_norm t
  let c0 := 1 / M.sqrtF alphas
  let c1 := (1 - alphas) / M.sqrtF (1 - alphas_cumprod)
  let cur ←
    match List.lookup t traj with
    | some s => Except.ok s
    | none => Except.error Err.keyError
  -- Corrector
  let rand_x_c := if 1 < t then ctx.noise.corr_x t else ctx.x_T.map fun _ => v3zero
  let step_size := ctx.step_lr * (sigma_x / M.sigma_scheduler.sigma_begin) ^ 2
  let std_x := M.sqrtF (2 * step_size)
  let out1 ← CSPNet.forward ctx.uncod.decoder time_emb (AtomTypes.probs cur.atom_types)
    cur.frac_coords cur.lattices b.num_atoms b.node2graph none false false (ctx.noise.coinA t)
  let pred_x1 := out1.coord_out.map fun v => fun i => v i * M.sqrtF sigma_norm
  let x05 := zip3With (correctorCoordUpdate step_size std_x) cur.frac_coords pred_x1 rand_x_c
  let l05 := cur.lattices
  let t05 := cur.atom_types
  -- Predictor
  let rand_l := if 1 < t then ctx.noise.pred_l t else ctx.l_T.map fun _ => m3zero
  let rand_t := if 1 < t then ctx.noise.pred_t t else ctx.t_T.map fun _ => tvzero
  let rand_x := if 1 < t then ctx.noise.pred_x t else ctx.x_T.map fun _ => v3zero
  let adjacent_sigma_x := M.sigma_scheduler.sigmas (t - 1)
  let step_size2 := sigma_x ^ 2 - adjacent_sigma_x ^ 2
  let std_x2 := M.sqrtF ((adjacent_sigma_x ^ 2 * (sigma_x ^ 2 - adjacent_sigma_x ^ 2)) / sigma_x ^ 2)
  let out2 ← CSPNet.forward ctx.uncod.decoder time_emb (AtomTypes.probs t05) x05 l05
    b.num_atoms b.node2graph none false false (ctx.noise.coinB t)
  let out3 ← CSPNet.forward M.decoder time_emb (AtomTypes.probs t05) x05 l05
    b.num_atoms b.node2graph none false false (ctx.noise.coinC t)
  let _val ←
    if M.decoder.pred_graph_level then
      match out3.graph_out with
      | some pred_graph => Except.ok (valNorm M.sqrtF pred_graph b.y)
      | none => Except.error Err.typeMismatch
    else if M.decoder.pred_node_level then
      match out3.node_out with
      | some pred_node => Except.ok (valNorm M.sqrtF pred_node b.y)
      | none => Except.error Err.typeMismatch
    else Except.error Err.invalidPredictionLevel
  let g := ctx.gradO t t05 x05 l05
  let grad_t := g.1
  let grad_x := g.2.1
  let grad_l := g.2.2
  let pred_t2 ←
    match out2.type_out with
    | some pt => Except.ok pt
    | none => Except.error Err.typeMismatch
  let pred_x2 := out2.coord_out.map fun v => fun i => v i * M.sqrtF sigma_norm
  let pred_l2 := out2.lattice_out
  let x_next := zip4With (sampleCoordUpdate step_size2 std_x2 ctx.aug) x05 pred_x2 grad_x rand_x
  let l_next := zip4With (sampleLatticeUpdate c0 c1 sigmas ctx.aug) l05 pred_l2 grad_l rand_l
  let t_next := zip4With (sampleTypeUpdate c0 c1 sigmas ctx.aug) t05 pred_t2 grad_t rand_t
  Except.ok (dictSet traj (t - 1)
    { num_atoms := b.num_atoms, atom_types := t_next,
      frac_coords := x_next.map mod1v, lattices := l_next })

/-- `for t in range(time_start, 0, -1)` threading the trajectory dict. -/
def sampleLoop (ctx : SampleCtx) : ℕ → Traj → Except Err Traj
  | 0, traj => Except.ok traj
  | t + 1, traj => do
    let tr1 ← CSPProperty.revStep ctx (t + 1) traj
    sampleLoop ctx t tr1

/-- `CSPProperty.sample` up to (and including) the reverse loop
(property.py lines 199-338): the initial-state choice (pure noise, or the
corrupted starting structure when `diff_ratio < 1`), the initial trajectory
entry, and the loop.  Returns `(time_start, traj)`. -/
def CSPProperty.sampleTraj (M : CSPProperty) (b : Batch) (uncod : CSPProperty)
    (diff_ratio step_lr aug : ℚ) (noise : SampleNoise) (gradO : GradOracle) :
    Except Err (ℕ × Traj) := do
  if M.time_independent then throw Err.assertion
  let l_T := noise.init_l
  let x_T := noise.init_x
  let t_T := noise.init_t
  let st :=
    if diff_ratio < 1 then
      let time_start := (⌊(M.beta_scheduler.timesteps : ℚ) * diff_ratio⌋).toNat
      let lattices := List.zipWith M.lattice_params_to_matrix b.lengths b.angles
      let atom_types_onehot := b.atom_types.map fun a => oneHot (a - 1)
      let alphas_cumprod := M.beta_scheduler.alphas_cumprod time_start
      let c0 := M.sqrtF alphas_cumprod
      let c1 := M.sqrtF (1 - alphas_cumprod)
      let sigmas := M.sigma_scheduler.sigmas time_start
      (time_start,
        List.zipWith (fun l rl => (fun i j => c0 * l i j + c1 * rl i j : Mat3)) lattices noise.start_l,
        List.zipWith (fun x rx => mod1v fun i => x i + sigmas * rx i) b.frac_coords noise.start_x,
        List.zipWith (fun o rt => (fun i => c0 * o i + c1 * rt i : TypeVec)) atom_types_onehot noise.start_t)
    else (M.beta_scheduler.timesteps, l_T, x_T, t_T)
  let time_start := st.1
  let l_T := st.2.1
  let x_T := st.2.2.1
  let t_T := st.2.2.2
  let ctx : SampleCtx :=
    { M := M, uncod := uncod, b := b, step_lr := step_lr, aug := aug,
      noise := noise, gradO := gradO, l_T := l_T, x_T := x_T, t_T := t_T }
  let traj0 : Traj :=
    [(time_start,
      { num_atoms := b.num_atoms, atom_types := t_T,
        frac_coords := x_T.map mod1v, lattices := l_T })]
  let traj ← sampleLoop ctx time_start traj0
  Except.ok (time_start, traj)

/-- The final structure returned by `sample` (`traj[0]` with the type channel
hardened to species ids by `argmax(dim=-1) + 1`). -/
structure FinalStruct where
  num_atoms : List ℕ
  atom_types : List ℕ
  frac_coords : List Vec3
  lattices : List Mat3

/-- The stacked trajectory (`traj_stack`, property.py lines 340-345). -/
structure TrajStack where
  num_atoms : List ℕ
  atom_types : List (List ℕ)
  all_frac_coords : List (List Vec3)
  all_lattices : List (List Mat3)

/-- `CSPProperty.sample` (property.py lines 198-350): run the reverse loop,
stack the snapshots in key order `time_start..0`, and harden `traj[0]`'s
type channel via arg-max + 1. -/
def CSPProperty.sample (M : CSPProperty) (b : Batch) (uncod : CSPProperty)
    (diff_ratio step_lr aug : ℚ) (noise : SampleNoise) (gradO : GradOracle) :
    Except Err (FinalStruct × TrajStack) := do
  let tstr ← CSPProperty.sampleTraj M b uncod diff_ratio step_lr aug noise gradO
  let time_start := tstr.1
  let traj := tstr.2
  let snaps ← (descList time_start 0).mapM fun i =>
    match List.lookup i traj with
    | some s => Except.ok s
    | none => Except.error Err.keyError
  let traj_stack : TrajStack :=
    { num_atoms := b.num_atoms,
      atom_types := snaps.map fun s => s.atom_types.map fun v => (argmaxF v).val + 1,
      all_frac_coords := snaps.map fun s => s.frac_coords,
      all_lattices := snaps.map fun s => s.lattices }
  let t0 ←
    match List.lookup 0 traj with
    | some s => Except.ok s
    | none => Except.error Err.keyError
  let res : FinalStruct :=
    { num_atoms := t0.num_atoms,
      atom_types := t0.atom_types.map fun v => (argmaxF v).val + 1,
      frac_coords := t0.frac_coords, lattices := t0.lattices }
  Except.ok (res, traj_stack)

/-- One iteration of the reverse loop of `CSPProperty.masked_sample`
(property.py lines 390-500).  It differs from `CSPProperty.revStep` in
exactly three places: the mask-length `assert` (line 482), the multiplicative
gating of `grad_x`/`grad_t` by the per-atom mask (lines 483-484), and the
lattice update, which drops the guidance-gradient term (line 488). -/
def CSPProperty.maskedRevStep (ctx : SampleCtx) (mask : List ℚ) (t : ℕ)
    (traj : Traj) : Except Err Traj := do
  let M := ctx.M
  let b := ctx.b
  let time_emb := (List.replicate b.num_graphs ((t : ℚ))).map M.time_embedding
  if 0 < M.latent_dim then throw Err.notImplemented
  let alphas := M.beta_scheduler.alphas t
  let alphas_cumprod := M.beta_scheduler.alphas_cumprod t
  let sigmas := M.beta_scheduler.sigmas t
  let sigma_x := M.sigma_scheduler.sigmas t
  let sigma_norm := M.sigma_scheduler.sigmas_norm t
  let c0 := 1 / M.sqrtF alphas
  let c1 := (1 - alphas) / M.sqrtF (1 - alphas_cumprod)
  let cur ←
    match List.lookup t traj with
    | some s => Except.ok s
    | none => Except.error Err.keyError
  -- Corrector
  let rand_x_c := if 1 < t then ctx.noise.corr_x t else ctx.x_T.map fun _ => v3zero
  let step_size := ctx.step_lr * (sigma_x / M.sigma_scheduler.sigma_begin) ^ 2
  let std_x := M.sqrtF (2 * step_size)
  let out1 ← CSPNet.forward ctx.uncod.decoder time_emb (AtomTypes.probs cur.atom_types)
    cur.frac_coords cur.lattices b.num_atoms b.node2graph none false false (ctx.noise.coinA t)
  let pred_x1 := out1.coord_out.map fun v => fun i => v i * M.sqrtF sigma_norm
  let x05 := zip3With (correctorCoordUpdate step_size std_x) cur.frac_coords pred_x1 rand_x_c
  let l05 := cur.lattices
  let t05 := cur.atom_types
  -- Predictor
  let rand_l := if 1 < t then ctx.noise.pred_l t else ctx.l_T.map fun _ => m3zero
  let rand_t := if 1 < t then ctx.noise.pred_t t else ctx.t_T.map fun _ => tvzero
  let rand_x := if 1 < t then ctx.noise.pred_x t else ctx.x_T.map fun _ => v3zero
  let adjacent_sigma_x := M.sigma_scheduler.sigmas (t - 1)
  let step_size2 := sigma_x ^ 2 - adjacent_sigma_x ^ 2
  let std_x2 := M.sqrtF ((adjacent_sigma_x ^ 2 * (sigma_x ^ 2 - adjacent_sigma_x ^ 2)) / sigma_x ^ 2)
  let out2 ← CSPNet.forward ctx.uncod.decoder time_emb (AtomTypes.probs t05) x05 l05
    b.num_atoms b.node2graph none false false (ctx.noise.coinB t)
  let out3 ← CSPNet.forward M.decoder time_emb (AtomTypes.probs t05) x05 l05
    b.num_atoms b.node2graph none false false (ctx.noise.coinC t)
  let _val ←
    if M.decoder.pred_graph_level then
      match out3.graph_out with
      | some pred_graph => Except.ok (valNorm M.sqrtF pred_graph b.y)
      | none => Except.error Err.typeMismatch
    else if M.decoder.pred_node_level then
      match out3.node_out with
      | some pred_node => Except.ok (valNorm M.sqrtF pred_node b.y)
      | none => Except.error Err.typeMismatch
    else Except.error Err.invalidPredictionLevel
  let g := ctx.gradO t t05 x05 l05
  let grad_t := g.1
  let grad_x := g.2.1
  let grad_l := g.2.2
  if mask.length = grad_x.length ∧ grad_x.length = grad_t.length then
    let grad_x := List.zipWith (fun gv m => (fun i => gv i * m : Vec3)) grad_x mask
    let grad_t := List.zipWith (fun gv m => (fun i => gv i * m : TypeVec)) grad_t mask
    let pred_t2 ←
      match out2.type_out with
      | some pt => Except.ok pt
      | none => Except.error Err.typeMismatch
    let pred_x2 := out2.coord_out.map fun v => fun i => v i * M.sqrtF sigma_norm
    let pred_l2 := out2.lattice_out
    let x_next := zip4With (sampleCoordUpdate step_size2 std_x2 ctx.aug) x05 pred_x2 grad_x rand_x
    let l_next := zip3With (maskedLatticeUpdate c0 c1 sigmas) l05 pred_l2 rand_l
    let t_next := zip4With (sampleTypeUpdate c0 c1 sigmas ctx.aug) t05 pred_t2 grad_t rand_t
    let _ := grad_l
    Except.ok (dictSet traj (t - 1)
      { num_atoms := b.num_atoms, atom_types := t_next,
        frac_coords := x_next.map mod1v, lattices := l_next })
  else Except.error Err.assertion

/-- The reverse loop of `masked_sample`. -/
def maskedSampleLoop (ctx : SampleCtx) (mask : List ℚ) : ℕ → Traj → Except Err Traj
  | 0, traj => Except.ok traj
  | t + 1, traj => do
    let tr1 ← CSPProperty.maskedRevStep ctx mask (t + 1) traj
    maskedSampleLoop ctx mask t tr1

/-! ## List-indexing lemmas for the flat batch layout -/

theorem getD_append_lt (l m : List α) (n : ℕ) (d : α) (h : n < l.length) :
    (l ++ m).getD n d = l.getD n d := by
  induction l generalizing n with
  | nil => simp at h
  | cons x xs ih =>
    cases n with
    | zero => rfl
    | succ k =>
      simp only [List.cons_append, List.getD_cons_succ]
      exact ih k (by simpa using h)

theorem getD_append_ge (l m : List α) (n : ℕ) (d : α) (h : l.length ≤ n) :
    (l ++ m).getD n d = m.getD (n - l.length) d := by
  induction l generalizing n with
  | nil => simp
  | cons x xs ih =>
    cases n with
    | zero => simp at h
    | succ k =>
      simp only [List.cons_append, List.getD_cons_succ, List.length_cons]
      rw [ih k (by simpa using h)]
      congr 1
      omega

theorem getD_replicate (a d : α) (n k : ℕ) (h : k < n) :
    (List.replicate n a).getD k d = a := by
  induction n generalizing k with
  | zero => omega
  | succ m ih =>
    cases k with
    | zero => rfl
    | succ j =>
      simp only [List.replicate_succ, List.getD_cons_succ]
      exact ih j (by omega)

theorem getD_map (f : α → β) (l : List α) (k : ℕ) (d : β) (e : α)
    (h : k < l.length) : (l.map f).getD k d = f (l.getD k e) := by
  induction l generalizing k with
  | nil => simp at h
  | cons x xs ih =>
    cases k with
    | zero => rfl
    | succ j =>
      simp only [List.map_cons, List.getD_cons_succ]
      exact ih j (by simpa using h)

theorem zip3With_length (f : α → β → γ → δ) (as : List α) (bs : List β) (cs : List γ) :
    (zip3With f as bs cs).length = min as.length (min bs.length cs.length) := by
  induction as generalizing bs cs with
  | nil => simp [zip3With]
  | cons a atl ih =>
    cases bs with
    | nil => simp [zip3With]
    | cons b btl =>
      cases cs with
      | nil => simp [zip3With]
      | cons c ctl => simp [zip3With, ih]; omega

theorem zip4With_length (f : α → β → γ → δ → ε) (as : List α) (bs : List β)
    (cs : List γ) (ds : List δ) :
    (zip4With f as bs cs ds).length
      = min as.length (min bs.length (min cs.length ds.length)) := by
  induction as generalizing bs cs ds with
  | nil => simp [zip4With]
  | cons a atl ih =>
    cases bs with
    | nil => simp [zip4With]
    | cons b btl =>
      cases cs with
      | nil => simp [zip4With]
      | cons c ctl =>
        cases ds with
        | nil => simp [zip4With]
        | cons d dtl => simp [zip4With, ih]; omega

theorem zip3With_getD (f : α → β → γ → δ) (as : List α) (bs : List β) (cs : List γ)
    (k : ℕ) (d : δ) (da : α) (db : β) (dc : γ)
    (ha : k < as.length) (hb : k < bs.length) (hc : k < cs.length) :
    (zip3With f as bs cs).getD k d = f (as.getD k da) (bs.getD k db) (cs.getD k dc) := by
  induction as generalizing bs cs k with
  | nil => simp at ha
  | cons a atl ih =>
    cases bs with
    | nil => simp at hb
    | cons b btl =>
      cases cs with
      | nil => simp at hc
      | cons c ctl =>
        cases k with
        | zero => rfl
        | succ j =>
          simp only [zip3With, List.getD_cons_succ]
          exact ih btl ctl j (by simpa using ha) (by simpa using hb) (by simpa using hc)

theorem zip4With_getD (f : α → β → γ → δ → ε) (as : List α) (bs : List β)
    (cs : List γ) (ds : List δ) (k : ℕ) (d : ε) (da : α) (db : β) (dc : γ) (dd : δ)
    (ha : k < as.length) (hb : k < bs.length) (hc : k < cs.length) (hd : k < ds.length) :
    (zip4With f as bs cs ds).getD k d
      = f (as.getD k da) (bs.getD k db) (cs.getD k dc) (ds.getD k dd) := by
  induction as generalizing bs cs ds k with
  | nil => simp at ha
  | cons a atl ih =>
    cases bs with
    | nil => simp at hb
    | cons b btl =>
      cases cs with
      | nil => simp at hc
      | cons c ctl =>
        cases ds with
        | nil => simp at hd
        | cons dv dtl =>
          cases k with
          | zero => rfl
          | succ j =>
            simp only [zip4With, List.getD_cons_succ]
            exact ih btl ctl dtl j (by simpa using ha) (by simpa using hb)
              (by simpa using hc) (by simpa using hd)

theorem node2graphAux_length (cs : List ℕ) (g : ℕ) :
    (node2graphAux cs g).length = cs.sum := by
  induction cs generalizing g with
  | nil => rfl
  | cons n rest ih => simp [node2graphAux, ih]

theorem node2graph_length (cs : List ℕ) : (node2graph cs).length = cs.sum :=
  node2graphAux_length cs 0

theorem node2graphAux_shift (cs : List ℕ) (g : ℕ) :
    node2graphAux cs (g + 1) = (node2graphAux cs g).map (· + 1) := by
  induction cs generalizing g with
  | nil => rfl
  | cons n rest ih =>
    simp only [node2graphAux, List.map_append, List.map_replicate]
    rw [ih (g + 1)]

theorem repeatInterleave_length (xs : List α) (cs : List ℕ)
    (h : xs.length = cs.length) : (repeatInterleave xs cs).length = cs.sum := by
  induction xs generalizing cs with
  | nil =>
    cases cs with
    | nil => rfl
    | cons n rest => simp at h
  | cons x xr ih =>
    cases cs with
    | nil => simp at h
    | cons n rest =>
      simp only [repeatInterleave, List.zip_cons_cons, List.flatMap_cons, List.length_append,
        List.length_replicate, List.sum_cons]
      have := ih rest (by simpa using h)
      simp only [repeatInterleave] at this
      omega

theorem node2graph_getD_lt (cs : List ℕ) (a : ℕ) (ha : a < cs.sum) :
    (node2graph cs).getD a 0 < cs.length := by
  induction cs generalizing a with
  | nil => simp at ha
  | cons n rest ih =>
    simp only [node2graph, node2graphAux] at *
    by_cases h : a < n
    · rw [getD_append_lt _ _ _ _ (by simpa using h), getD_replicate _ _ _ _ h]
      simp
    · push_neg at h
      rw [getD_append_ge _ _ _ _ (by simpa using h)]
      simp only [List.length_replicate]
      rw [node2graphAux_shift]
      have hbound : a - n < rest.sum := by
        simp only [List.sum_cons] at ha; omega
      have hlen : a - n < (node2graphAux rest 0).length := by
        rw [node2graphAux_length]; exact hbound
      rw [getD_map _ _ _ _ 0 hlen]
      have := ih (a - n) hbound
      simp only [node2graph] at this
      simpa using Nat.succ_lt_succ this

theorem repeatInterleave_getD (xs : List α) (cs : List ℕ) (a : ℕ) (d : α)
    (h : xs.length = cs.length) (ha : a < cs.sum) :
    (repeatInterleave xs cs).getD a d = xs.getD ((node2graph cs).getD a 0) d := by
  induction xs generalizing cs a with
  | nil =>
    cases cs with
    | nil => simp at ha
    | cons n rest => simp at h
  | cons x xr ih =>
    cases cs with
    | nil => simp at h
    | cons n rest =>
      simp only [repeatInterleave, List.zip_cons_cons, List.flatMap_cons] at *
      simp only [node2graph, node2graphAux]
      by_cases hcase : a < n
      · rw [getD_append_lt _ _ _ _ (by simpa using hcase),
          getD_append_lt _ _ _ _ (by simpa using hcase),
          getD_replicate _ _ _ _ hcase, getD_replicate _ _ _ _ hcase]
        rfl
      · push_neg at hcase
        rw [getD_append_ge _ _ _ _ (by simpa using hcase),
          getD_append_ge _ _ _ _ (by simpa using hcase)]
        simp only [List.length_replicate]
        have hbound : a - n < rest.sum := by
          simp only [List.sum_cons] at ha; omega
        have hlen2 : a - n < (node2graphAux rest 0).length := by
          rw [node2graphAux_length]; exact hbound
        rw [node2graphAux_shift, getD_map _ _ _ _ 0 hlen2]
        have := ih rest (a - n) (by simpa using h) hbound
        simp only [repeatInterleave, node2graph] at this
        rw [this]
        rfl

/-! ## The default forward path never fails on float atom types -/

theorem Except_ok_bind (a : α) (f : α → Except ε β) :
    (Except.ok a : Except ε α) >>= f = f a := rfl

/-- The final node features computed by the default path of `CSPNet.forward`
on float atom types (`smooth = True`) with classifier-free guidance off. -/
def CSPNet.coreNodeFeats (N : CSPNet) (t : List (List ℚ)) (p : List TypeVec)
    (frac_coords : List Vec3) (lattices : List Mat3) (num_atoms : List ℕ)
    (n2g : List ℕ) : List HVec :=
  let ed := CSPNet.gen_edges N num_atoms frac_coords lattices n2g
  let edges := ed.1
  let frac_diff := ed.2
  let edge2graph := edges.map fun e => n2g.getD e.1 0
  let node_features := p.map N.node_embedding_lin
  let t_per_atom := repeatInterleave t num_atoms
  let node_features := List.zipWith (fun h te => h ++ te) node_features t_per_atom
  let node_features := node_features.map N.atom_latent_emb
  let node_features := (List.range N.num_layers).foldl
    (fun nf i =>
      CSPLayer.forward (N.layers i) nf frac_coords lattices edges edge2graph (some frac_diff))
    node_features
  if N.ln then node_features.map N.final_layer_norm else node_features

/-- The per-structure mean of the final node features. -/
def CSPNet.coreGraphFeats (N : CSPNet) (t : List (List ℚ)) (p : List TypeVec)
    (frac_coords : List Vec3) (lattices : List Mat3) (num_atoms : List ℕ)
    (n2g : List ℕ) : List HVec :=
  let node_features := CSPNet.coreNodeFeats N t p frac_coords lattices num_atoms n2g
  scatterMeanL node_features n2g (inferredDimSize n2g) ((node_features.headD []).length)

/-- The value computed by the default path of `CSPNet.forward` on float atom
types (`smooth = True`) with classifier-free guidance off: the same pipeline
without the fallible steps.  Used to reason about the calls the diffusion
module makes. -/
def CSPNet.forwardCore (N : CSPNet) (t : List (List ℚ)) (p : List TypeVec)
    (frac_coords : List Vec3) (lattices : List Mat3) (num_atoms : List ℕ)
    (n2g : List ℕ) : CSPOut :=
  let node_features := CSPNet.coreNodeFeats N t p frac_coords lattices num_atoms n2g
  let graph_features := CSPNet.coreGraphFeats N t p frac_coords lattices num_atoms n2g
  { coord_out := node_features.map N.coord_out,
    lattice_out :=
      if N.ip then List.zipWith matMul3 ((graph_features.map N.lattice_out).map unflat9) lattices
      else (graph_features.map N.lattice_out).map unflat9,
    type_out := if N.pred_type then some (node_features.map N.type_out) else none,
    graph_out := if N.pred_graph_level then some (graph_features.map N.graph_out) else none,
    node_out := if N.pred_node_level then some (node_features.map N.node_out) else none }

theorem forwardCore_graph_out (N : CSPNet) (t : List (List ℚ)) (p : List TypeVec)
    (frac_coords : List Vec3) (lattices : List Mat3) (num_atoms : List ℕ)
    (n2g : List ℕ) :
    (CSPNet.forwardCore N t p frac_coords lattices num_atoms n2g).graph_out
      = if N.pred_graph_level then
          some ((CSPNet.coreGraphFeats N t p frac_coords lattices num_atoms n2g).map
            N.graph_out)
        else none := rfl

theorem forwardCore_node_out (N : CSPNet) (t : List (List ℚ)) (p : List TypeVec)
    (frac_coords : List Vec3) (lattices : List Mat3) (num_atoms : List ℕ)
    (n2g : List ℕ) :
    (CSPNet.forwardCore N t p frac_coords lattices num_atoms n2g).node_out
      = if N.pred_node_level then
          some ((CSPNet.coreNodeFeats N t p frac_coords lattices num_atoms n2g).map
            N.node_out)
        else none := rfl

theorem forwardCore_type_out (N : CSPNet) (t : List (List ℚ)) (p : List TypeVec)
    (frac_coords : List Vec3) (lattices : List Mat3) (num_atoms : List ℕ)
    (n2g : List ℕ) :
    (CSPNet.forwardCore N t p frac_coords lattices num_atoms n2g).type_out
      = if N.pred_type then
          some ((CSPNet.coreNodeFeats N t p frac_coords lattices num_atoms n2g).map
            N.type_out)
        else none := rfl

theorem CSPNet.forward_probs_ok (N : CSPNet) (t : List (List ℚ)) (p : List TypeVec)
    (frac_coords : List Vec3) (lattices : List Mat3) (num_atoms : List ℕ)
    (n2g : List ℕ) (y : Option (List (List ℚ))) (r : Bool)
    (hs : N.smooth = true) (hc : N.cfg = false) :
    CSPNet.forward N t (AtomTypes.probs p) frac_coords lattices num_atoms n2g y false false r
      = Except.ok (CSPNet.forwardCore N t p frac_coords lattices num_atoms n2g) := by
  simp [CSPNet.forward, CSPNet.forwardCore, CSPNet.coreNodeFeats, CSPNet.coreGraphFeats,
    hs, hc, Except_ok_bind]

theorem zipWith_getD (f : α → β → γ) (as : List α) (bs : List β) (k : ℕ)
    (d : γ) (da : α) (db : β) (ha : k < as.length) (hb : k < bs.length) :
    (List.zipWith f as bs).getD k d = f (as.getD k da) (bs.getD k db) := by
  induction as generalizing bs k with
  | nil => simp at ha
  | cons a atl ih =>
    cases bs with
    | nil => simp at hb
    | cons b btl =>
      cases k with
      | zero => rfl
      | succ j =>
        simp only [List.zipWith_cons_cons, List.getD_cons_succ]
        exact ih btl j (by simpa using ha) (by simpa using hb)

theorem zip_getD (as : List α) (bs : List β) (k : ℕ) (da : α) (db : β)
    (ha : k < as.length) (hb : k < bs.length) :
    (as.zip bs).getD k (da, db) = (as.getD k da, bs.getD k db) :=
  zipWith_getD Prod.mk as bs k (da, db) da db ha hb

theorem ext_getD (as bs : List α) (d : α) (hlen : as.length = bs.length)
    (h : ∀ k, k < as.length → as.getD k d = bs.getD k d) : as = bs := by
  apply List.ext_getElem hlen
  intro k h1 h2
  have := h k h1
  rwa [List.getD_eq_getElem as d h1, List.getD_eq_getElem bs d h2] at this

theorem getD_range (n k : ℕ) (h : k < n) : (List.range n).getD k 0 = k := by
  rw [List.getD_eq_getElem _ _ (by simpa using h)]
  simp

theorem scatterMeanL_length (src : List HVec) (index : List ℕ) (ds w : ℕ) :
    (scatterMeanL src index ds w).length = ds := by
  simp [scatterMeanL]

/-! ## Shared concrete model instances (used to instantiate the theorems) -/

def zLayer : CSPLayerW :=
  { hidden_dim := 1, ln := false, ip := true, dis_emb := none,
    edge_mlp := fun _ => [0], node_mlp := fun _ => [0], layer_norm := fun v => v }

def zNet : CSPNet :=
  { num_layers := 0, edge_style := EdgeStyle.fc, smooth := true, ln := false,
    ip := true, pred_type := true, pred_graph_level := true,
    pred_node_level := false, pred_dim := some 1, cfg := false,
    node_embedding_lin := fun _ => [0], node_embedding_emb := fun _ => [0],
    y_projection := fun _ => [0], atom_latent_emb := fun _ => [0],
    layers := fun _ => zLayer, final_layer_norm := fun v => v,
    coord_out := fun _ => v3zero, lattice_out := fun _ => [0,0,0,0,0,0,0,0,0],
    type_out := fun _ => tvzero, graph_out := fun _ => [0],
    node_out := fun _ => [0], knn_edges := fun _ _ _ _ => ([], []) }

def zNetNoHead : CSPNet :=
  { zNet with pred_graph_level := false, pred_node_level := false }

def zSched : Sched :=
  { timesteps := 1, betas := fun _ => 0, alphas := fun _ => 1,
    alphas_cumprod := fun _ => 1, sigmas := fun _ => 0 }

def zSig : SigmaSched :=
  { sigmas := fun _ => 0, sigmas_norm := fun _ => 1, sigma_begin := 1 }

def zProp : CSPProperty :=
  { decoder := zNet, beta_scheduler := zSched, sigma_scheduler := zSig,
    time_dim := 2, timeFreq := fun _ => 0, sinF := fun _ => 0, cosF := fun _ => 0,
    sqrtF := fun _ => 0, time_independent := false, latent_dim := 0,
    lattice_params_to_matrix := fun _ _ => m3zero }

def zPropNoHead : CSPProperty := { zProp with decoder := zNetNoHead }

def zBatch : Batch :=
  { num_atoms := [1], frac_coords := [v3zero], lengths := [fun _ => 1],
    angles := [fun _ => 1], atom_types := [1], y := [[0]] }

def zNoise : SampleNoise :=
  { init_l := [m3zero], init_x := [v3zero], init_t := [tvzero],
    start_l := [m3zero], start_x := [v3zero], start_t := [tvzero],
    corr_x := fun _ => [v3zero], pred_l := fun _ => [m3zero],
    pred_x := fun _ => [v3zero], pred_t := fun _ => [tvzero],
    coinA := fun _ => false, coinB := fun _ => false, coinC := fun _ => false }

def zGrad : GradOracle := fun _ _ _ _ => ([tvzero], [v3zero], [m3zero])

/-! ## Claim C1 -/

/-- C1 (counterexample): for `num_atoms = [2, 3]` the fully-connected edge
builder does NOT produce 8 edges — `dense_to_sparse` on the all-ones
block-diagonal adjacency keeps the diagonal, so self-loops are included and
the edge count is `2*2 + 3*3 = 13`, refuting the claimed
`2*1 + 3*2 = 8` (and with it the claimed 8-entry `edge2graph`). -/
theorem C1_cex :
    ¬ ((CSPNet.gen_edges zNet [2, 3] [] []
        (node2graph [2, 3])).1.length = 8) := by
  decide

/-- C1 (amended): for `num_atoms = [2, 3]`, `gen_edges` with edge style `'fc'`
produces exactly `2*2 + 3*3 = 13` directed edges — every ordered pair within
a structure, self-loops included — with
`edge2graph = [0,0,0,0,1,1,1,1,1,1,1,1,1]`, and each edge `(i, j)` carries the
displacement `(x_j - x_i) mod 1`. -/
theorem C1_fc_edges (N : CSPNet) (hfc : N.edge_style = EdgeStyle.fc)
    (frac_coords : List Vec3) (lattices : List Mat3) :
    (CSPNet.gen_edges N [2, 3] frac_coords lattices (node2graph [2, 3])).1
      = [(0,0),(0,1),(1,0),(1,1),(2,2),(2,3),(2,4),(3,2),(3,3),(3,4),(4,2),(4,3),(4,4)]
    ∧ ((CSPNet.gen_edges N [2, 3] frac_coords lattices (node2graph [2, 3])).1.map
          fun e => (node2graph [2, 3]).getD e.1 0)
        = [0, 0, 0, 0, 1, 1, 1, 1, 1, 1, 1, 1, 1]
    ∧ (CSPNet.gen_edges N [2, 3] frac_coords lattices (node2graph [2, 3])).2
      = (CSPNet.gen_edges N [2, 3] frac_coords lattices (node2graph [2, 3])).1.map
          fun e => mod1v fun i =>
            (frac_coords.getD e.2 v3zero) i - (frac_coords.getD e.1 v3zero) i := by
  refine ⟨?_, ?_, ?_⟩
  · simp only [CSPNet.gen_edges, hfc]; decide
  · simp only [CSPNet.gen_edges, hfc]; decide
  · simp only [CSPNet.gen_edges, hfc]

/-- C1 witness. -/
theorem C1_fc_edges_witness :
    (CSPNet.gen_edges zNet [2, 3] [] [] (node2graph [2, 3])).1
      = [(0,0),(0,1),(1,0),(1,1),(2,2),(2,3),(2,4),(3,2),(3,3),(3,4),(4,2),(4,3),(4,4)]
    ∧ ((CSPNet.gen_edges zNet [2, 3] [] [] (node2graph [2, 3])).1.map
          fun e => (node2graph [2, 3]).getD e.1 0)
        = [0, 0, 0, 0, 1, 1, 1, 1, 1, 1, 1, 1, 1]
    ∧ (CSPNet.gen_edges zNet [2, 3] [] [] (node2graph [2, 3])).2
      = (CSPNet.gen_edges zNet [2, 3] [] [] (node2graph [2, 3])).1.map
          fun e => mod1v fun i =>
            (([] : List Vec3).getD e.2 v3zero) i - (([] : List Vec3).getD e.1 v3zero) i :=
  C1_fc_edges zNet rfl [] []

/-! ## Claim C9 -/

/-- C9: with classifier-free guidance disabled (`cfg = false`), the default
dispatch path of `CSPNet.forward` computes exactly the same outputs as
`CSPNet.unconditional` on identical inputs: the two code paths are duplicate
code. -/
theorem C9_forward_eq_unconditional (N : CSPNet) (h : N.cfg = false)
    (t : List (List ℚ)) (atom_types : AtomTypes) (frac_coords : List Vec3)
    (lattices : List Mat3) (num_atoms : List ℕ) (n2g : List ℕ)
    (y : Option (List (List ℚ))) (r : Bool) :
    CSPNet.forward N t atom_types frac_coords lattices num_atoms n2g y false false r
      = CSPNet.unconditional N t atom_types frac_coords lattices num_atoms n2g y := by
  simp [CSPNet.forward, CSPNet.unconditional, h, Except_ok_bind]

/-- C9 witness. -/
theorem C9_forward_eq_unconditional_witness :
    CSPNet.forward zNet [[0, 0]] (AtomTypes.probs [tvzero]) [v3zero] [m3zero]
        [1] (node2graph [1]) none false false true
      = CSPNet.unconditional zNet [[0, 0]] (AtomTypes.probs [tvzero]) [v3zero]
        [m3zero] [1] (node2graph [1]) none :=
  C9_forward_eq_unconditional zNet rfl [[0, 0]] (AtomTypes.probs [tvzero])
    [v3zero] [m3zero] [1] (node2graph [1]) none true

/-! ## Claim C10 -/

theorem map_zero_eq_replicate (row : List ℚ) :
    (row.map fun _ => (0 : ℚ)) = List.replicate row.length 0 := by
  induction row with
  | nil => rfl
  | cons x xs ih => simp [ih, List.replicate_succ]

/-- C10: `infer` zeroes the time embedding and feeds the clean structure to
the backbone, so its result does not depend on the internally sampled
timesteps: two runs on the same batch whose drawn timestep lists have the
same length (both are always `batch.num_graphs` draws) return identical
(prediction, target) pairs. -/
theorem C10_infer_time_invariant (M : CSPProperty) (b : Batch)
    (timesA timesB : List ℕ) (r : Bool) (h : timesA.length = timesB.length) :
    CSPProperty.infer M b timesA r = CSPProperty.infer M b timesB r := by
  have key : ∀ ts : List ℕ,
      ((ts.map fun tt : ℕ => M.time_embedding (tt : ℚ)).map fun row => row.map fun _ => (0 : ℚ))
        = List.replicate ts.length (List.replicate (2 * (M.time_dim / 2)) 0) := by
    intro ts
    induction ts with
    | nil => rfl
    | cons x xs ih =>
      simp only [List.map_cons, List.length_cons, List.replicate_succ]
      rw [ih]
      congr 1
      rw [map_zero_eq_replicate, time_embedding_length]
  simp only [CSPProperty.infer, key, h]

/-- C10 witness. -/
theorem C10_infer_time_invariant_witness :
    CSPProperty.infer zProp zBatch [0] false = CSPProperty.infer zProp zBatch [1] false :=
  C10_infer_time_invariant zProp zBatch [0] [1] false rfl

/-! ## Claim C5 -/

/-- C5: the lattice update of `masked_sample` omits exactly the
guidance-gradient term of the unmasked `sample` lattice update:
`sample` computes `maskedUpdate - σ²·aug·grad_l` entrywise, and the two
updates agree exactly when `aug = 0` or `grad_l` is the zero matrix. -/
theorem C5_masked_lattice_omits_guidance (c0 c1 sigmas aug : ℚ)
    (l05 predL gradL randL : Mat3) :
    (∀ i j, sampleLatticeUpdate c0 c1 sigmas aug l05 predL gradL randL i j
        = maskedLatticeUpdate c0 c1 sigmas l05 predL randL i j
            - sigmas ^ 2 * aug * gradL i j)
    ∧ (aug = 0 ∨ gradL = m3zero →
        sampleLatticeUpdate c0 c1 sigmas aug l05 predL gradL randL
          = maskedLatticeUpdate c0 c1 sigmas l05 predL randL) := by
  constructor
  · intro i j
    simp only [sampleLatticeUpdate, maskedLatticeUpdate]
    ring
  · rintro (h | h) <;> funext i j <;>
      simp only [sampleLatticeUpdate, maskedLatticeUpdate, h, m3zero] <;> ring

/-- C5 witness. -/
theorem C5_masked_lattice_omits_guidance_witness :
    sampleLatticeUpdate 1 1 1 0 m3zero m3zero m3zero m3zero
      = maskedLatticeUpdate 1 1 1 m3zero m3zero m3zero :=
  (C5_masked_lattice_omits_guidance 1 1 1 0 m3zero m3zero m3zero m3zero).2 (Or.inl rfl)

/-! ## Claim C6 -/

theorem gate_zero_mask (gs : List Vec3) (n k : ℕ) :
    (List.zipWith (fun gv m => (fun i => gv i * m : Vec3)) gs
        (List.replicate n (0 : ℚ))).getD k v3zero = v3zero := by
  induction gs generalizing n k with
  | nil => simp [v3zero]
  | cons g gtl ih =>
    cases n with
    | zero => simp [v3zero]
    | succ m =>
      cases k with
      | zero =>
        simp only [List.replicate_succ, List.zipWith_cons_cons, List.getD_cons_zero]
        funext i; simp [v3zero]
      | succ j =>
        simp only [List.replicate_succ, List.zipWith_cons_cons, List.getD_cons_succ]
        exact ih m j

theorem gate_zero_mask_t (gs : List TypeVec) (n k : ℕ) :
    (List.zipWith (fun gv m => (fun i => gv i * m : TypeVec)) gs
        (List.replicate n (0 : ℚ))).getD k tvzero = tvzero := by
  induction gs generalizing n k with
  | nil => simp [tvzero]
  | cons g gtl ih =>
    cases n with
    | zero => simp [tvzero]
    | succ m =>
      cases k with
      | zero =>
        simp only [List.replicate_succ, List.zipWith_cons_cons, List.getD_cons_zero]
        funext i; simp [tvzero]
      | succ j =>
        simp only [List.replicate_succ, List.zipWith_cons_cons, List.getD_cons_succ]
        exact ih m j

/-- C6: in `masked_sample` with an all-zero per-atom mask, the multiplicative
gate `grad * mask` annihilates the coordinate and atom-type guidance
gradients — every gated gradient row is the zero vector — so the coordinate
and type predictor updates coincide with the unguided updates, whatever the
computed gradients were. -/
theorem C6_zero_mask_unguided (n : ℕ) (step_size std_x aug c0 c1 sigmas : ℚ)
    (x05 predX randX grad_x : List Vec3) (t05 predT randT grad_t : List TypeVec)
    (hgx : grad_x.length = n) (hgt : grad_t.length = n)
    (hx0 : x05.length = n) (hpx : predX.length = n) (hrx : randX.length = n)
    (ht0 : t05.length = n) (hpt : predT.length = n) (hrt : randT.length = n) :
    (∀ k, (List.zipWith (fun gv m => (fun i => gv i * m : Vec3)) grad_x
        (List.replicate n (0 : ℚ))).getD k v3zero = v3zero)
    ∧ (∀ k, (List.zipWith (fun gv m => (fun i => gv i * m : TypeVec)) grad_t
        (List.replicate n (0 : ℚ))).getD k tvzero = tvzero)
    ∧ zip4With (sampleCoordUpdate step_size std_x aug) x05 predX
        (List.zipWith (fun gv m => (fun i => gv i * m : Vec3)) grad_x
          (List.replicate n (0 : ℚ))) randX
      = zip3With (unguidedCoordUpdate step_size std_x) x05 predX randX
    ∧ zip4With (sampleTypeUpdate c0 c1 sigmas aug) t05 predT
        (List.zipWith (fun gv m => (fun i => gv i * m : TypeVec)) grad_t
          (List.replicate n (0 : ℚ))) randT
      = zip3With (unguidedTypeUpdate c0 c1 sigmas) t05 predT randT := by
  have hgatedx : (List.zipWith (fun gv m => (fun i => gv i * m : Vec3)) grad_x
      (List.replicate n (0 : ℚ))).length = n := by
    simp [List.length_zipWith, hgx]
  have hgatedt : (List.zipWith (fun gv m => (fun i => gv i * m : TypeVec)) grad_t
      (List.replicate n (0 : ℚ))).length = n := by
    simp [List.length_zipWith, hgt]
  refine ⟨fun k => gate_zero_mask grad_x n k, fun k => gate_zero_mask_t grad_t n k, ?_, ?_⟩
  · apply ext_getD _ _ v3zero
    · rw [zip4With_length, zip3With_length, hx0, hpx, hrx, hgatedx]; simp
    · intro k hk
      rw [zip4With_length, hx0, hpx, hrx, hgatedx] at hk
      simp only [min_self] at hk
      have hk1 : k < x05.length := by rw [hx0]; exact hk
      have hk2 : k < predX.length := by rw [hpx]; exact hk
      have hk3 : k < (List.zipWith (fun gv m => (fun i => gv i * m : Vec3)) grad_x
          (List.replicate n (0 : ℚ))).length := by rw [hgatedx]; exact hk
      have hk4 : k < randX.length := by rw [hrx]; exact hk
      have h4 := zip4With_getD (sampleCoordUpdate step_size std_x aug) x05 predX
        (List.zipWith (fun gv m => (fun i => gv i * m : Vec3)) grad_x
          (List.replicate n (0 : ℚ))) randX
        k v3zero v3zero v3zero v3zero v3zero hk1 hk2 hk3 hk4
      have h3 := zip3With_getD (unguidedCoordUpdate step_size std_x) x05 predX randX
        k v3zero v3zero v3zero v3zero hk1 hk2 hk4
      rw [h4, h3, gate_zero_mask]
      funext i
      simp only [sampleCoordUpdate, unguidedCoordUpdate, v3zero]
      ring
  · apply ext_getD _ _ tvzero
    · rw [zip4With_length, zip3With_length, ht0, hpt, hrt, hgatedt]; simp
    · intro k hk
      rw [zip4With_length, ht0, hpt, hrt, hgatedt] at hk
      simp only [min_self] at hk
      have hk1 : k < t05.length := by rw [ht0]; exact hk
      have hk2 : k < predT.length := by rw [hpt]; exact hk
      have hk3 : k < (List.zipWith (fun gv m => (fun i => gv i * m : TypeVec)) grad_t
          (List.replicate n (0 : ℚ))).length := by rw [hgatedt]; exact hk
      have hk4 : k < randT.length := by rw [hrt]; exact hk
      have h4 := zip4With_getD (sampleTypeUpdate c0 c1 sigmas aug) t05 predT
        (List.zipWith (fun gv m => (fun i => gv i * m : TypeVec)) grad_t
          (List.replicate n (0 : ℚ))) randT
        k tvzero tvzero tvzero tvzero tvzero hk1 hk2 hk3 hk4
      have h3 := zip3With_getD (unguidedTypeUpdate c0 c1 sigmas) t05 predT randT
        k tvzero tvzero tvzero tvzero hk1 hk2 hk4
      rw [h4, h3, gate_zero_mask_t]
      funext i
      simp only [sampleTypeUpdate, unguidedTypeUpdate, tvzero]
      ring

/-- C6 witness. -/
theorem C6_zero_mask_unguided_witness :
    zip4With (sampleCoordUpdate 1 1 1) [v3zero] [v3zero]
        (List.zipWith (fun gv m => (fun i => gv i * m : Vec3)) [v3zero]
          (List.replicate 1 (0 : ℚ))) [v3zero]
      = zip3With (unguidedCoordUpdate 1 1) [v3zero] [v3zero] [v3zero] :=
  (C6_zero_mask_unguided 1 1 1 1 1 1 1 [v3zero] [v3zero] [v3zero] [v3zero]
    [tvzero] [tvzero] [tvzero] [tvzero]
    rfl rfl rfl rfl rfl rfl rfl rfl).2.2.1

/-! ## Claim C7 -/

/-- C7: in every message-passing layer's node update, the incoming edge
features are mean-aggregated grouped by the edge's receiving endpoint
(`edge_index[0]`, the atom whose features enter the edge MLP first — the
destination of the message), and an atom with zero incoming edges gets the
zero vector as its aggregate, not an error. -/
theorem C7_node_model_mean_aggregation (W : CSPLayerW)
    (node_features edge_features : List HVec) (edges : List (ℕ × ℕ)) (k : ℕ)
    (hk : k < node_features.length) :
    (CSPLayer.node_model W node_features edge_features edges).getD k []
      = W.node_mlp ((node_features.getD k []) ++
          ((scatterMeanL edge_features (edges.map Prod.fst)
              node_features.length W.hidden_dim).getD k []))
    ∧ ((∀ e ∈ edges, e.1 ≠ k) →
        (scatterMeanL edge_features (edges.map Prod.fst)
            node_features.length W.hidden_dim).getD k []
          = List.replicate W.hidden_dim 0) := by
  constructor
  · simp only [CSPLayer.node_model]
    have hagg : (scatterMeanL edge_features (edges.map Prod.fst)
        node_features.length W.hidden_dim).length = node_features.length :=
      scatterMeanL_length _ _ _ _
    have hz : k < (node_features.zip (scatterMeanL edge_features (edges.map Prod.fst)
        node_features.length W.hidden_dim)).length := by
      rw [List.length_zip, hagg]
      simpa using hk
    rw [getD_map _ _ _ _ ([], []) hz,
      zip_getD _ _ _ [] [] hk (by rw [hagg]; exact hk)]
  · intro h
    have hrange : k < (List.range node_features.length).length := by simpa using hk
    simp only [scatterMeanL]
    rw [getD_map _ _ _ _ 0 hrange, getD_range _ _ hk]
    have hempty : ((edges.map Prod.fst).zip edge_features).filterMap
        (fun p => if p.1 = k then some p.2 else none) = [] := by
      rw [List.filterMap_eq_nil_iff]
      intro p hp
      have hmem : p.1 ∈ edges.map Prod.fst := (List.of_mem_zip hp).1
      obtain ⟨e, he, hfst⟩ := List.mem_map.mp hmem
      have : p.1 ≠ k := hfst ▸ h e he
      simp [this]
    rw [hempty]
    simp only [List.foldl_nil, List.length_nil, List.map_replicate]
    norm_num

/-- C7 witness: a two-atom structure with a single edge `(0, 1)` — atom 1 has
no incoming edge under the grouping index, so its aggregate is the zero
vector. -/
theorem C7_node_model_mean_aggregation_witness :
    ((CSPLayer.node_model zLayer [[1], [2]] [[5]] [(0, 1)]).getD 1 []
      = zLayer.node_mlp (([2] : HVec) ++
          ((scatterMeanL [[5]] [(0 : ℕ)] 2 zLayer.hidden_dim).getD 1 [])))
    ∧ (scatterMeanL [[5]] [(0 : ℕ)] 2 zLayer.hidden_dim).getD 1 []
        = List.replicate zLayer.hidden_dim 0 := by
  have h := C7_node_model_mean_aggregation zLayer [[1], [2]] [[5]] [(0, 1)] 1
    (by decide)
  refine ⟨?_, ?_⟩
  · have h1 := h.1
    simpa using h1
  · have h2 := h.2 (by decide)
    simpa using h2

/-! ## Claim C8 -/

/-- C8 (counterexample): constructing `CSPNet` with neither prediction level
enabled succeeds — the constructor's only validation (lines 218-219) does not
fire when both flags are off, so "neither level" is NOT a configuration error
raised at construction. -/
theorem C8_cex : CSPNet.initCheck false false none = Except.ok () := rfl

/-- C8 (amended): requesting `pred_graph_level` or `pred_node_level` with
`pred_dim` unset raises a configuration error at construction; configuring
neither prediction level passes construction and is instead rejected at the
first training forward pass (`CSPProperty.forward` raises
"Invalid prediction level"), never silently defaulted. -/
theorem C8_config_errors :
    (∀ (pg pn : Bool), (pg || pn) = true →
        CSPNet.initCheck pg pn none = Except.error Err.invalidPredictionLevel)
    ∧ CSPNet.initCheck false false none = Except.ok ()
    ∧ (∀ (M : CSPProperty) (b : Batch) (times : List ℕ) (rand_l : List Mat3)
        (rand_x : List Vec3) (rand_t : List TypeVec) (r : Bool),
        M.decoder.pred_graph_level = false → M.decoder.pred_node_level = false →
        M.decoder.smooth = true → M.decoder.cfg = false →
        CSPProperty.forward M b times rand_l rand_x rand_t r
          = Except.error Err.invalidPredictionLevel) := by
  refine ⟨?_, rfl, ?_⟩
  · intro pg pn hor
    simp [CSPNet.initCheck, hor]
  · intro M b times rand_l rand_x rand_t r hpg hpn hsm hcf
    simp [CSPProperty.forward, CSPNet.forward_probs_ok, hsm, hcf, hpg, hpn,
      Except_ok_bind]

/-- C8 witness. -/
theorem C8_config_errors_witness :
    CSPNet.initCheck true false none = Except.error Err.invalidPredictionLevel
    ∧ CSPNet.initCheck false false none = Except.ok ()
    ∧ CSPProperty.forward zPropNoHead zBatch [1] [m3zero] [v3zero] [tvzero] false
        = Except.error Err.invalidPredictionLevel := by
  obtain ⟨h1, h2, h3⟩ := C8_config_errors
  exact ⟨h1 true false rfl, h2,
    h3 zPropNoHead zBatch [1] [m3zero] [v3zero] [tvzero] false rfl rfl rfl rfl⟩

/-! ## Claim C2 -/

theorem forwardCore_graph_out_some (N : CSPNet) (t : List (List ℚ)) (p : List TypeVec)
    (frac_coords : List Vec3) (lattices : List Mat3) (num_atoms : List ℕ)
    (n2g : List ℕ) (h : N.pred_graph_level = true) :
    ∃ G, (CSPNet.forwardCore N t p frac_coords lattices num_atoms n2g).graph_out = some G := by
  simp only [CSPNet.forwardCore, h]
  exact ⟨_, rfl⟩

theorem forwardCore_node_out_some (N : CSPNet) (t : List (List ℚ)) (p : List TypeVec)
    (frac_coords : List Vec3) (lattices : List Mat3) (num_atoms : List ℕ)
    (n2g : List ℕ) (h : N.pred_node_level = true) :
    ∃ G, (CSPNet.forwardCore N t p frac_coords lattices num_atoms n2g).node_out = some G := by
  simp only [CSPNet.forwardCore, h]
  exact ⟨_, rfl⟩

/-- C2: with `time_independent` off, the training forward pass corrupts the
batch exactly as specified — per atom `a` in structure `g(a)`,
`x_t[a] = (x_0[a] + σ(t_{g(a)})·ε_x[a]) mod 1`; per structure `g`,
`l_t[g] = √ᾱ(t_g)·l_0[g] + √(1-ᾱ(t_g))·ε_l[g]`; per atom the one-hot type is
corrupted with the same `√ᾱ`/`√(1-ᾱ)` coefficients — and it returns as loss
the L1 distance between the enabled head's prediction on that corrupted state
and the ground-truth `batch.y`. -/
theorem C2_forward_corruption (M : CSPProperty) (b : Batch) (times : List ℕ)
    (rand_l : List Mat3) (rand_x : List Vec3) (rand_t : List TypeVec) (r : Bool)
    (hti : M.time_independent = false)
    (hsm : M.decoder.smooth = true) (hcf : M.decoder.cfg = false)
    (hts : times.length = b.num_atoms.length)
    (hfc : b.frac_coords.length = b.num_atoms.sum)
    (hrx : rand_x.length = b.num_atoms.sum)
    (hat : b.atom_types.length = b.num_atoms.sum)
    (hrt : rand_t.length = b.num_atoms.sum)
    (hlen : b.lengths.length = b.num_atoms.length)
    (hang : b.angles.length = b.num_atoms.length)
    (hrl : rand_l.length = b.num_atoms.length) :
    (∀ a, a < b.num_atoms.sum →
      (CSPProperty.corruptCoords M b.num_atoms times b.frac_coords rand_x).getD a v3zero
        = mod1v fun i => (b.frac_coords.getD a v3zero) i
            + M.sigma_scheduler.sigmas (times.getD ((node2graph b.num_atoms).getD a 0) 0)
              * (rand_x.getD a v3zero) i)
    ∧ (∀ g, g < b.num_atoms.length →
      (CSPProperty.corruptLattice M times
          (List.zipWith M.lattice_params_to_matrix b.lengths b.angles) rand_l).getD g m3zero
        = fun i j =>
            M.sqrtF (M.beta_scheduler.alphas_cumprod (times.getD g 0))
              * (M.lattice_params_to_matrix (b.lengths.getD g v3zero)
                  (b.angles.getD g v3zero)) i j
            + M.sqrtF (1 - M.beta_scheduler.alphas_cumprod (times.getD g 0))
              * (rand_l.getD g m3zero) i j)
    ∧ (∀ a, a < b.num_atoms.sum →
      (CSPProperty.corruptTypes M b.num_atoms times
          (b.atom_types.map fun x => oneHot (x - 1)) rand_t).getD a tvzero
        = fun i =>
            M.sqrtF (M.beta_scheduler.alphas_cumprod
                (times.getD ((node2graph b.num_atoms).getD a 0) 0))
              * oneHot (b.atom_types.getD a 0 - 1) i
            + M.sqrtF (1 - M.beta_scheduler.alphas_cumprod
                (times.getD ((node2graph b.num_atoms).getD a 0) 0))
              * (rand_t.getD a tvzero) i)
    ∧ (M.decoder.pred_graph_level = true →
      CSPProperty.forward M b times rand_l rand_x rand_t r
        = Except.ok (l1Loss
            ((CSPNet.forwardCore M.decoder
                (times.map fun tt : ℕ => M.time_embedding (tt : ℚ))
                (CSPProperty.corruptTypes M b.num_atoms times
                  (b.atom_types.map fun x => oneHot (x - 1)) rand_t)
                (CSPProperty.corruptCoords M b.num_atoms times b.frac_coords rand_x)
                (CSPProperty.corruptLattice M times
                  (List.zipWith M.lattice_params_to_matrix b.lengths b.angles) rand_l)
                b.num_atoms b.node2graph).graph_out.getD []) b.y))
    ∧ (M.decoder.pred_graph_level = false → M.decoder.pred_node_level = true →
      CSPProperty.forward M b times rand_l rand_x rand_t r
        = Except.ok (l1Loss
            ((CSPNet.forwardCore M.decoder
                (times.map fun tt : ℕ => M.time_embedding (tt : ℚ))
                (CSPProperty.corruptTypes M b.num_atoms times
                  (b.atom_types.map fun x => oneHot (x - 1)) rand_t)
                (CSPProperty.corruptCoords M b.num_atoms times b.frac_coords rand_x)
                (CSPProperty.corruptLattice M times
                  (List.zipWith M.lattice_params_to_matrix b.lengths b.angles) rand_l)
                b.num_atoms b.node2graph).node_out.getD []) b.y)) := by
  have hga : ∀ a, a < b.num_atoms.sum →
      (node2graph b.num_atoms).getD a 0 < times.length := by
    intro a ha
    rw [hts]
    exact node2graph_getD_lt b.num_atoms a ha
  refine ⟨?_, ?_, ?_, ?_, ?_⟩
  · intro a ha
    simp only [CSPProperty.corruptCoords]
    have h1 : (times.map M.sigma_scheduler.sigmas).length = b.num_atoms.length := by
      simp [hts]
    have hspa : (repeatInterleave (times.map M.sigma_scheduler.sigmas)
        b.num_atoms).length = b.num_atoms.sum :=
      repeatInterleave_length _ _ h1
    have hb1 : a < b.frac_coords.length := by rw [hfc]; exact ha
    have hb2 : a < rand_x.length := by rw [hrx]; exact ha
    have hb3 : a < (repeatInterleave (times.map M.sigma_scheduler.sigmas)
        b.num_atoms).length := by rw [hspa]; exact ha
    rw [zip3With_getD _ _ _ _ a v3zero v3zero v3zero 0 hb1 hb2 hb3,
      repeatInterleave_getD _ _ a 0 h1 ha,
      getD_map M.sigma_scheduler.sigmas times _ 0 0 (hga a ha)]
  · intro g hg
    simp only [CSPProperty.corruptLattice]
    have hc0 : g < ((times.map M.beta_scheduler.alphas_cumprod).map M.sqrtF).length := by
      simp [hts]; omega
    have hc1 : g < ((times.map M.beta_scheduler.alphas_cumprod).map
        fun a => M.sqrtF (1 - a)).length := by
      simp [hts]; omega
    have hlt : g < (List.zipWith M.lattice_params_to_matrix b.lengths b.angles).length := by
      simp [List.length_zipWith, hlen, hang]; omega
    have hrlg : g < rand_l.length := by rw [hrl]; exact hg
    have htg : g < times.length := by rw [hts]; exact hg
    have htg2 : g < (times.map M.beta_scheduler.alphas_cumprod).length := by
      simp [hts]; omega
    have hlng : g < b.lengths.length := by rw [hlen]; exact hg
    have hagg : g < b.angles.length := by rw [hang]; exact hg
    rw [zip4With_getD _ _ _ _ _ g m3zero 0 0 m3zero m3zero hc0 hc1 hlt hrlg,
      getD_map M.sqrtF _ g 0 0 htg2,
      getD_map (fun a => M.sqrtF (1 - a)) _ g 0 0 htg2,
      getD_map M.beta_scheduler.alphas_cumprod times g 0 0 htg,
      zipWith_getD M.lattice_params_to_matrix b.lengths b.angles g m3zero v3zero v3zero
        hlng hagg]
  · intro a ha
    simp only [CSPProperty.corruptTypes]
    have h1 : ((times.map M.beta_scheduler.alphas_cumprod).map M.sqrtF).length
        = b.num_atoms.length := by simp [hts]
    have h2 : ((times.map M.beta_scheduler.alphas_cumprod).map
        fun x => M.sqrtF (1 - x)).length = b.num_atoms.length := by simp [hts]
    have hr1 : (repeatInterleave ((times.map M.beta_scheduler.alphas_cumprod).map M.sqrtF)
        b.num_atoms).length = b.num_atoms.sum := repeatInterleave_length _ _ h1
    have hr2 : (repeatInterleave ((times.map M.beta_scheduler.alphas_cumprod).map
        fun x => M.sqrtF (1 - x)) b.num_atoms).length = b.num_atoms.sum :=
      repeatInterleave_length _ _ h2
    have hb1 : a < (repeatInterleave ((times.map M.beta_scheduler.alphas_cumprod).map
        M.sqrtF) b.num_atoms).length := by rw [hr1]; exact ha
    have hb2 : a < (repeatInterleave ((times.map M.beta_scheduler.alphas_cumprod).map
        fun x => M.sqrtF (1 - x)) b.num_atoms).length := by rw [hr2]; exact ha
    have hb3 : a < (b.atom_types.map fun x => oneHot (x - 1)).length := by
      simp only [List.length_map]; rw [hat]; exact ha
    have hb4 : a < rand_t.length := by rw [hrt]; exact ha
    have htg2 : (node2graph b.num_atoms).getD a 0
        < (times.map M.beta_scheduler.alphas_cumprod).length := by
      simp only [List.length_map]; exact hga a ha
    have hatl : a < b.atom_types.length := by rw [hat]; exact ha
    rw [zip4With_getD _ _ _ _ _ a tvzero 0 0 tvzero tvzero hb1 hb2 hb3 hb4,
      repeatInterleave_getD _ _ a 0 h1 ha,
      repeatInterleave_getD _ _ a 0 h2 ha,
      getD_map M.sqrtF _ _ 0 0 htg2,
      getD_map (fun x => M.sqrtF (1 - x)) _ _ 0 0 htg2,
      getD_map M.beta_scheduler.alphas_cumprod times _ 0 0 (hga a ha),
      getD_map (fun x => oneHot (x - 1)) b.atom_types a tvzero 0 hatl]
  · intro hpg
    obtain ⟨G, hG⟩ := forwardCore_graph_out_some M.decoder
      (times.map fun tt : ℕ => M.time_embedding (tt : ℚ))
      (CSPProperty.corruptTypes M b.num_atoms times
        (b.atom_types.map fun x => oneHot (x - 1)) rand_t)
      (CSPProperty.corruptCoords M b.num_atoms times b.frac_coords rand_x)
      (CSPProperty.corruptLattice M times
        (List.zipWith M.lattice_params_to_matrix b.lengths b.angles) rand_l)
      b.num_atoms b.node2graph hpg
    simp only [CSPProperty.forward, hti, Bool.false_eq_true, if_false,
      CSPNet.forward_probs_ok _ _ _ _ _ _ _ _ _ hsm hcf, Except_ok_bind, hpg, if_true, hG,
      Option.getD_some]
  · intro hpg hpn
    obtain ⟨G, hG⟩ := forwardCore_node_out_some M.decoder
      (times.map fun tt : ℕ => M.time_embedding (tt : ℚ))
      (CSPProperty.corruptTypes M b.num_atoms times
        (b.atom_types.map fun x => oneHot (x - 1)) rand_t)
      (CSPProperty.corruptCoords M b.num_atoms times b.frac_coords rand_x)
      (CSPProperty.corruptLattice M times
        (List.zipWith M.lattice_params_to_matrix b.lengths b.angles) rand_l)
      b.num_atoms b.node2graph hpn
    simp only [CSPProperty.forward, hti, Bool.false_eq_true, if_false,
      CSPNet.forward_probs_ok _ _ _ _ _ _ _ _ _ hsm hcf, Except_ok_bind, hpg, hpn,
      if_true, hG, Option.getD_some]

/-- C2 witness: the loss conjunct instantiated on a one-atom batch. -/
theorem C2_forward_corruption_witness :
    CSPProperty.forward zProp zBatch [1] [m3zero] [v3zero] [tvzero] false
      = Except.ok (l1Loss
          ((CSPNet.forwardCore zProp.decoder
              ([1].map fun tt : ℕ => zProp.time_embedding (tt : ℚ))
              (CSPProperty.corruptTypes zProp zBatch.num_atoms [1]
                (zBatch.atom_types.map fun x => oneHot (x - 1)) [tvzero])
              (CSPProperty.corruptCoords zProp zBatch.num_atoms [1]
                zBatch.frac_coords [v3zero])
              (CSPProperty.corruptLattice zProp [1]
                (List.zipWith zProp.lattice_params_to_matrix zBatch.lengths zBatch.angles)
                [m3zero])
              zBatch.num_atoms zBatch.node2graph).graph_out.getD []) zBatch.y) :=
  (C2_forward_corruption zProp zBatch [1] [m3zero] [v3zero] [tvzero] false
    rfl rfl rfl rfl rfl rfl rfl rfl rfl rfl rfl).2.2.2.1 rfl

/-! ## Sampler lemmas (claims C3 and C4) -/

/-- Any successful reverse step stores `traj[t-1]` with the batch's atom
counts and coordinates wrapped by the explicit modulo. -/
theorem revStep_ok_shape (ctx : SampleCtx) (t : ℕ) (traj tr2 : Traj)
    (h : CSPProperty.revStep ctx t traj = Except.ok tr2) :
    ∃ (t_next : List TypeVec) (x_next : List Vec3) (l_next : List Mat3),
      tr2 = dictSet traj (t - 1)
        { num_atoms := ctx.b.num_atoms, atom_types := t_next,
          frac_coords := x_next.map mod1v, lattices := l_next } := by
  simp only [CSPProperty.revStep, Bind.bind, Except.bind, throw, throwThe,
    MonadExceptOf.throw, Pure.pure, Except.pure] at h
  repeat' split at h
  all_goals try exact Except.noConfusion h
  all_goals injection h with h2
  all_goals exact ⟨_, _, _, h2.symm⟩

/-- Inversion for a successful `Except` bind. -/
theorem bind_ok_inv {α β : Type} {e : Except Err α} {f : α → Except Err β} {b : β}
    (h : e >>= f = Except.ok b) : ∃ a, e = Except.ok a ∧ f a = Except.ok b := by
  cases e with
  | error err => exact Except.noConfusion h
  | ok a => exact ⟨a, rfl, h⟩

/-- Inversion for a bind whose continuation immediately returns. -/
theorem bind_pure_ok_inv {α β : Type} {e : Except Err α} {g : α → β} {b : β}
    (h : (e >>= fun a => Except.ok (g a)) = Except.ok b) :
    ∃ a, e = Except.ok a ∧ g a = b := by
  cases e with
  | error err => exact Except.noConfusion h
  | ok a =>
    refine ⟨a, rfl, ?_⟩
    have h2 : Except.ok (g a) = Except.ok b := h
    injection h2

/-- Membership in a Python-dict assignment: every entry is an old entry or
the newly written one. -/
theorem dictSet_mem {α : Type} (m : List (ℕ × α)) (k : ℕ) (v : α) (p : ℕ × α)
    (hp : p ∈ dictSet m k v) : p ∈ m ∨ p = (k, v) := by
  unfold dictSet at hp
  split at hp
  · obtain ⟨q, hq, hfq⟩ := List.mem_map.mp hp
    by_cases h : q.1 = k
    · right; rw [← hfq]; simp [h]
    · left; rw [← hfq]; simp [h]; exact hq
  · rcases List.mem_append.mp hp with h | h
    · left; exact h
    · right; simpa using h

/-- The wrapping invariant on one snapshot (spec: fractional coordinates live
in `[0, 1)` after explicit modulo). -/
def coordsWrapped (s : Snapshot) : Prop :=
  ∀ v ∈ s.frac_coords, ∀ i, 0 ≤ v i ∧ v i < 1

theorem wrapped_of_map (xs : List Vec3) :
    ∀ v ∈ xs.map mod1v, ∀ i, 0 ≤ v i ∧ v i < 1 := by
  intro v hv i
  obtain ⟨w, _, rfl⟩ := List.mem_map.mp hv
  exact ⟨mod1_nonneg _, mod1_lt_one _⟩

theorem sampleLoop_wrapped (ctx : SampleCtx) :
    ∀ (t : ℕ) (traj tr2 : Traj),
      sampleLoop ctx t traj = Except.ok tr2 →
      (∀ p ∈ traj, coordsWrapped p.2) → ∀ p ∈ tr2, coordsWrapped p.2 := by
  intro t
  induction t with
  | zero =>
    intro traj tr2 h hP
    simp only [sampleLoop] at h
    injection h with h2
    subst h2
    exact hP
  | succ n ih =>
    intro traj tr2 h hP
    simp only [sampleLoop, Bind.bind, Except.bind] at h
    cases hrs : CSPProperty.revStep ctx (n + 1) traj with
    | error e => rw [hrs] at h; exact Except.noConfusion h
    | ok tr1 =>
      rw [hrs] at h
      obtain ⟨tn, xn, ln, hshape⟩ := revStep_ok_shape ctx (n + 1) traj tr1 hrs
      refine ih tr1 tr2 h ?_
      intro p hp
      rw [hshape] at hp
      rcases dictSet_mem _ _ _ _ hp with hmem | hnew
      · exact hP p hmem
      · rw [hnew]
        intro v hv
        exact wrapped_of_map xn v hv

/-- C4: every snapshot stored in the sampling trajectory — the initial one
and each one appended by a reverse step — has all fractional coordinates
wrapped to `[0, 1)` by the explicit modulo, and the modulo sends the value
`1.3` to `0.3`. -/
theorem C4_trajectory_coords_wrapped (M : CSPProperty) (b : Batch)
    (uncod : CSPProperty) (diff_ratio step_lr aug : ℚ) (noise : SampleNoise)
    (gradO : GradOracle) (res : ℕ × Traj)
    (h : CSPProperty.sampleTraj M b uncod diff_ratio step_lr aug noise gradO
        = Except.ok res) :
    (∀ p ∈ res.2, ∀ v ∈ p.2.frac_coords, ∀ i, 0 ≤ v i ∧ v i < 1)
    ∧ mod1 (13 / 10) = 3 / 10 := by
  constructor
  · simp only [CSPProperty.sampleTraj] at h
    split at h
    case isTrue => exact Except.noConfusion h
    obtain ⟨tr, hloop, hfin⟩ := bind_pure_ok_inv h
    rw [← hfin]
    intro p hp
    refine sampleLoop_wrapped _ _ _ _ hloop ?_ p hp
    intro q hq
    rw [List.mem_singleton.mp hq]
    intro v hv
    exact wrapped_of_map _ v hv
  · have hfloor : (⌊(13 / 10 : ℚ)⌋ : ℤ) = 1 := by
      rw [Int.floor_eq_iff]
      norm_num
    rw [mod1, hfloor]
    norm_num

/-- C4 witness: a concrete successful run. -/
theorem C4_trajectory_coords_wrapped_witness :
    (∀ p ∈ ((CSPProperty.sampleTraj zProp zBatch zProp 1 0 0 zNoise zGrad).toOption.getD
        (0, [])).2, ∀ v ∈ p.2.frac_coords, ∀ i, 0 ≤ v i ∧ v i < 1)
    ∧ mod1 (13 / 10) = 3 / 10 :=
  C4_trajectory_coords_wrapped zProp zBatch zProp 1 0 0 zNoise zGrad _ rfl

theorem lookup_some_of_mem_keys {α : Type} (m : List (ℕ × α)) (k : ℕ)
    (h : k ∈ m.map Prod.fst) : ∃ v, List.lookup k m = some v := by
  induction m with
  | nil => simp at h
  | cons p tl ih =>
    obtain ⟨a, c⟩ := p
    by_cases hk : k = a
    · subst hk
      exact ⟨c, by simp [List.lookup]⟩
    · have h3 : k = a ∨ k ∈ tl.map Prod.fst := by
        simpa only [List.map_cons, List.mem_cons] using h
      have h2 : k ∈ tl.map Prod.fst := h3.resolve_left hk
      obtain ⟨v, hv⟩ := ih h2
      refine ⟨v, ?_⟩
      have hba : (k == a) = false := by simp [hk]
      simp only [List.lookup, hba]
      exact hv

theorem lookup_none_of_not_mem_keys {α : Type} (m : List (ℕ × α)) (k : ℕ)
    (h : k ∉ m.map Prod.fst) : List.lookup k m = none := by
  induction m with
  | nil => rfl
  | cons p tl ih =>
    obtain ⟨a, c⟩ := p
    simp only [List.map_cons, List.mem_cons] at h
    push_neg at h
    have hba : (k == a) = false := by simp [h.1]
    simp only [List.lookup, hba]
    exact ih h.2

theorem mem_descList (T s k : ℕ) (hsT : s ≤ T) :
    k ∈ descList T s ↔ s ≤ k ∧ k ≤ T := by
  unfold descList
  rw [List.mem_reverse, List.mem_range'_1]
  omega

theorem descList_self (T : ℕ) : descList T T = [T] := by
  unfold descList
  have h : T + 1 - T = 1 := by omega
  rw [h]
  rfl

theorem descList_length (T s : ℕ) : (descList T s).length = T + 1 - s := by
  unfold descList
  rw [List.length_reverse, List.length_range']

theorem descList_step (T t : ℕ) (h1 : 1 ≤ t) (h2 : t ≤ T) :
    descList T t ++ [t - 1] = descList T (t - 1) := by
  unfold descList
  have h3 : T + 1 - (t - 1) = (T + 1 - t) + 1 := by omega
  rw [h3, List.range'_succ]
  have h4 : t - 1 + 1 = t := by omega
  rw [h4, List.reverse_cons]

/-- Under the configuration the sampler expects — `latent_dim = 0`,
float-typed decoders without classifier-free guidance, a type head on the
unconditional model and a property head on the main model — a reverse step
with `traj[t]` present succeeds and performs exactly `traj[t-1] = snapshot`. -/
theorem revStep_full (ctx : SampleCtx) (t : ℕ) (traj : Traj) (cur : Snapshot)
    (hlat : ctx.M.latent_dim = 0)
    (hlook : List.lookup t traj = some cur)
    (hsm1 : ctx.M.decoder.smooth = true) (hcf1 : ctx.M.decoder.cfg = false)
    (hsm2 : ctx.uncod.decoder.smooth = true) (hcf2 : ctx.uncod.decoder.cfg = false)
    (hptype : ctx.uncod.decoder.pred_type = true)
    (hlevel : ctx.M.decoder.pred_graph_level = true ∨ ctx.M.decoder.pred_node_level = true) :
    ∃ s, CSPProperty.revStep ctx t traj = Except.ok (dictSet traj (t - 1) s) := by
  have hsucc : ∃ tr2, CSPProperty.revStep ctx t traj = Except.ok tr2 := by
    rcases hlevel with hpg | hpn
    · simp only [CSPProperty.revStep, hlat, hlook, Bind.bind, Except.bind,
        CSPNet.forward_probs_ok _ _ _ _ _ _ _ _ _ hsm2 hcf2,
        CSPNet.forward_probs_ok _ _ _ _ _ _ _ _ _ hsm1 hcf1,
        forwardCore_graph_out, forwardCore_type_out, hpg, hptype, if_true]
      simp [Pure.pure, Except.pure]
    · by_cases hpg : ctx.M.decoder.pred_graph_level = true
      · simp only [CSPProperty.revStep, hlat, hlook, Bind.bind, Except.bind,
          CSPNet.forward_probs_ok _ _ _ _ _ _ _ _ _ hsm2 hcf2,
          CSPNet.forward_probs_ok _ _ _ _ _ _ _ _ _ hsm1 hcf1,
          forwardCore_graph_out, forwardCore_type_out, hpg, hptype, if_true]
        simp [Pure.pure, Except.pure]
      · simp only [CSPProperty.revStep, hlat, hlook, Bind.bind, Except.bind,
          CSPNet.forward_probs_ok _ _ _ _ _ _ _ _ _ hsm2 hcf2,
          CSPNet.forward_probs_ok _ _ _ _ _ _ _ _ _ hsm1 hcf1,
          forwardCore_graph_out, forwardCore_node_out, forwardCore_type_out,
          hpg, hpn, hptype, if_true]
        simp [Pure.pure, Except.pure]
  obtain ⟨tr2, htr2⟩ := hsucc
  obtain ⟨tn, xn, ln, hshape⟩ := revStep_ok_shape ctx t traj tr2 htr2
  rw [hshape] at htr2
  exact ⟨_, htr2⟩

theorem sampleLoop_keys (ctx : SampleCtx) (T : ℕ)
    (hlat : ctx.M.latent_dim = 0)
    (hsm1 : ctx.M.decoder.smooth = true) (hcf1 : ctx.M.decoder.cfg = false)
    (hsm2 : ctx.uncod.decoder.smooth = true) (hcf2 : ctx.uncod.decoder.cfg = false)
    (hptype : ctx.uncod.decoder.pred_type = true)
    (hlevel : ctx.M.decoder.pred_graph_level = true ∨ ctx.M.decoder.pred_node_level = true) :
    ∀ (t : ℕ) (traj : Traj), t ≤ T → traj.map Prod.fst = descList T t →
      ∃ tr, sampleLoop ctx t traj = Except.ok tr
        ∧ tr.map Prod.fst = descList T 0 := by
  intro t
  induction t with
  | zero =>
    intro traj _ hkeys
    exact ⟨traj, rfl, hkeys⟩
  | succ n ih =>
    intro traj hle hkeys
    have hmem : n + 1 ∈ traj.map Prod.fst := by
      rw [hkeys]
      exact (mem_descList T (n + 1) (n + 1) hle).2 ⟨le_refl _, hle⟩
    obtain ⟨cur, hcur⟩ := lookup_some_of_mem_keys traj (n + 1) hmem
    obtain ⟨s, hs⟩ := revStep_full ctx (n + 1) traj cur hlat hcur hsm1 hcf1 hsm2 hcf2
      hptype hlevel
    have hnot : n ∉ traj.map Prod.fst := by
      rw [hkeys]
      intro hmm
      have := (mem_descList T (n + 1) n hle).1 hmm
      omega
    have hnone : List.lookup n traj = none := lookup_none_of_not_mem_keys traj n hnot
    have hdict : dictSet traj (n + 1 - 1) s = traj ++ [(n, s)] := by
      simp [dictSet, hnone]
    have hkeys2 : (traj ++ [(n, s)]).map Prod.fst = descList T n := by
      rw [List.map_append, hkeys]
      simpa using descList_step T (n + 1) (by omega) hle
    obtain ⟨tr, htr, htrkeys⟩ := ih (traj ++ [(n, s)]) (by omega) hkeys2
    refine ⟨tr, ?_, htrkeys⟩
    simp only [sampleLoop, Bind.bind, Except.bind, hs, hdict]
    exact htr

theorem mapM_lookup_ok (tr : Traj) (l : List ℕ)
    (h : ∀ i ∈ l, ∃ s, List.lookup i tr = some s) :
    ∃ out, (l.mapM fun i =>
        match List.lookup i tr with
        | some s => Except.ok s
        | none => Except.error Err.keyError) = Except.ok out := by
  induction l with
  | nil => exact ⟨[], rfl⟩
  | cons a tl ih =>
    obtain ⟨s, hs⟩ := h a (List.mem_cons_self a tl)
    obtain ⟨out, hout⟩ := ih fun i hi => h i (List.mem_cons_of_mem a hi)
    refine ⟨s :: out, ?_⟩
    rw [List.mapM_cons]
    simp only [hs, hout, Bind.bind, Except.bind, Pure.pure, Except.pure]

/-! ## Claim C3 -/

/-- C3: with `diff_ratio = 1`, a sampling run over `T = timesteps` scheduler
steps builds the trajectory append-only — any successful reverse step on a
trajectory not yet containing `t-1` appends exactly the key `t-1` and
overwrites nothing — and (under the sampler's expected configuration) returns
a trajectory whose keys, in insertion order, are exactly `T, T-1, ..., 0`
(`T + 1` snapshots), while `sample`'s terminal structure converts the soft
type channel by arg-max + 1, so every terminal atom-type value lies in
`{1, ..., MAX_ATOMIC_NUM}`. -/
theorem C3_sample_trajectory (M : CSPProperty) (b : Batch) (uncod : CSPProperty)
    (diff_ratio step_lr aug : ℚ) (noise : SampleNoise) (gradO : GradOracle)
    (hdr : diff_ratio = 1)
    (hti : M.time_independent = false)
    (hlat : M.latent_dim = 0)
    (hsm1 : M.decoder.smooth = true) (hcf1 : M.decoder.cfg = false)
    (hsm2 : uncod.decoder.smooth = true) (hcf2 : uncod.decoder.cfg = false)
    (hptype : uncod.decoder.pred_type = true)
    (hlevel : M.decoder.pred_graph_level = true ∨ M.decoder.pred_node_level = true) :
    (∀ (ctx : SampleCtx) (t : ℕ) (traj tr2 : Traj),
        CSPProperty.revStep ctx t traj = Except.ok tr2 →
        List.lookup (t - 1) traj = none →
        ∃ s, tr2 = traj ++ [(t - 1, s)])
    ∧ ∃ tr, CSPProperty.sampleTraj M b uncod diff_ratio step_lr aug noise gradO
          = Except.ok (M.beta_scheduler.timesteps, tr)
        ∧ tr.map Prod.fst = descList M.beta_scheduler.timesteps 0
        ∧ tr.length = M.beta_scheduler.timesteps + 1
        ∧ ∃ res stack,
            CSPProperty.sample M b uncod diff_ratio step_lr aug noise gradO
              = Except.ok (res, stack)
            ∧ ∀ a ∈ res.atom_types, 1 ≤ a ∧ a ≤ MAX_ATOMIC_NUM := by
  constructor
  · intro ctx t traj tr2 hok hnone
    obtain ⟨tn, xn, ln, hshape⟩ := revStep_ok_shape ctx t traj tr2 hok
    have hd : dictSet traj (t - 1)
        ({ num_atoms := ctx.b.num_atoms, atom_types := tn,
           frac_coords := xn.map mod1v, lattices := ln } : Snapshot)
        = traj ++ [(t - 1,
            ({ num_atoms := ctx.b.num_atoms, atom_types := tn,
               frac_coords := xn.map mod1v, lattices := ln } : Snapshot))] := by
      simp [dictSet, hnone]
    exact ⟨_, hshape.trans hd⟩
  · subst hdr
    have hkeys0 : ([(M.beta_scheduler.timesteps,
        ({ num_atoms := b.num_atoms, atom_types := noise.init_t,
           frac_coords := noise.init_x.map mod1v,
           lattices := noise.init_l } : Snapshot))] : Traj).map Prod.fst
        = descList M.beta_scheduler.timesteps M.beta_scheduler.timesteps := by
      simp [descList_self]
    obtain ⟨tr, htr, hkeys⟩ := sampleLoop_keys
      ⟨M, uncod, b, step_lr, aug, noise, gradO, noise.init_l, noise.init_x, noise.init_t⟩
      M.beta_scheduler.timesteps hlat hsm1 hcf1 hsm2 hcf2 hptype hlevel
      M.beta_scheduler.timesteps _ (le_refl _) hkeys0
    have hmain : CSPProperty.sampleTraj M b uncod 1 step_lr aug noise gradO
        = Except.ok (M.beta_scheduler.timesteps, tr) := by
      simp only [CSPProperty.sampleTraj, hti]
      simp only [Bool.false_eq_true, if_false, lt_irrefl]
      rw [htr]
      rfl
    have hlength : tr.length = M.beta_scheduler.timesteps + 1 := by
      have hc := congrArg List.length hkeys
      rw [List.length_map, descList_length] at hc
      omega
    have hmem0 : (0 : ℕ) ∈ tr.map Prod.fst := by
      rw [hkeys]
      exact (mem_descList _ 0 0 (Nat.zero_le _)).2 ⟨le_refl 0, Nat.zero_le _⟩
    obtain ⟨t0, ht0⟩ := lookup_some_of_mem_keys tr 0 hmem0
    have hall : ∀ i ∈ descList M.beta_scheduler.timesteps 0,
        ∃ s, List.lookup i tr = some s := by
      intro i hi
      apply lookup_some_of_mem_keys
      rw [hkeys]
      exact hi
    obtain ⟨snaps, hsnaps⟩ := mapM_lookup_ok tr _ hall
    have hsample : CSPProperty.sample M b uncod 1 step_lr aug noise gradO
        = Except.ok
            (({ num_atoms := t0.num_atoms,
                atom_types := t0.atom_types.map fun v => (argmaxF v).val + 1,
                frac_coords := t0.frac_coords, lattices := t0.lattices } : FinalStruct),
             ({ num_atoms := b.num_atoms,
                atom_types := snaps.map fun s => s.atom_types.map fun v => (argmaxF v).val + 1,
                all_frac_coords := snaps.map fun s => s.frac_coords,
                all_lattices := snaps.map fun s => s.lattices } : TrajStack)) := by
      simp only [CSPProperty.sample, hmain, Bind.bind, Except.bind, hsnaps, ht0]
    refine ⟨tr, hmain, hkeys, hlength, _, _, hsample, ?_⟩
    intro a ha
    obtain ⟨v, hv, rfl⟩ := List.mem_map.mp ha
    have hlt := (argmaxF v).isLt
    exact ⟨Nat.succ_le_succ (Nat.zero_le _), by omega⟩

/-- C3 witness: a concrete one-step configuration. -/
theorem C3_sample_trajectory_witness :
    ∃ tr, CSPProperty.sampleTraj zProp zBatch zProp 1 0 0 zNoise zGrad
        = Except.ok (zProp.beta_scheduler.timesteps, tr)
      ∧ tr.map Prod.fst = descList zProp.beta_scheduler.timesteps 0
      ∧ tr.length = zProp.beta_scheduler.timesteps + 1
      ∧ ∃ res stack,
          CSPProperty.sample zProp zBatch zProp 1 0 0 zNoise zGrad
            = Except.ok (res, stack)
          ∧ ∀ a ∈ res.atom_types, 1 ≤ a ∧ a ≤ MAX_ATOMIC_NUM :=
  (C3_sample_trajectory zProp zBatch zProp 1 0 0 zNoise zGrad rfl rfl rfl rfl rfl
    rfl rfl rfl (Or.inl rfl)).2

end DOSMatGen
